import Mathlib

/-
Verification of the braintree-commercetools connector extension
(src/braintree-extension): payment.service.ts, customer.controller.ts and
utils/response.utils.ts, shallowly embedded in Lean.

Host primitives (JSON.parse, the braintree SDK gateway calls, the mapping
utilities living outside the three embedded files, process.env and the
current timestamp) are modelled as fields of an explicit `Env` record.
JavaScript objects produced by JSON.parse are modelled by the inductive
type `Js`; JavaScript numbers are modelled by exact integers.  The sale
amount rendering `String(centAmount * Math.pow(10, -fractionDigits || 0))`
is IEEE-double arithmetic, which is outside the embedding; it is
therefore a host primitive (`Env.amountString`), like `JSON.parse`.
Thrown JavaScript values are modelled by `JsError` and
`Except`; the in-place mutation performed by `removeEmptyProperties` is
modelled by returning the cleaned value alongside the produced actions.
-/

/- A JavaScript value as produced by `JSON.parse`: null, booleans,
numbers, strings and objects (arrays, which none of the verified claims
exercise, behave for the embedded code like objects keyed by indices and
are elided). -/
mutual
inductive Js where
  | null : Js
  | bool (b : Bool) : Js
  | num (n : Int) : Js
  | str (s : String) : Js
  | obj (fields : JsFields) : Js
inductive JsFields where
  | nil : JsFields
  | cons (key : String) (value : Js) (rest : JsFields) : JsFields
end

/-- First binding of a key in an object field list (JavaScript objects
have unique keys, so first = only). -/
def fsGet : JsFields → String → Option Js
  | .nil, _ => none
  | .cons k v r, key => if k == key then some v else fsGet r key

/-- JavaScript property read `v[key]`: `undefined` (`none`) on
non-objects. -/
def jsGet (v : Js) (key : String) : Option Js :=
  match v with
  | .obj fs => fsGet fs key
  | _ => none

/-- Two-step optional-chained property read `v?.a?.b`. -/
def jsGet2 (v : Js) (k1 k2 : String) : Option Js :=
  match jsGet v k1 with
  | some w => jsGet w k2
  | none => none

/-- JavaScript property assignment on an object: an existing key keeps
its position, a new key is appended. -/
def setFields : JsFields → String → Js → JsFields
  | .nil, k, v => .cons k v .nil
  | .cons k0 v0 r, k, v => if k0 == k then .cons k0 v r else .cons k0 v0 (setFields r k v)

/-- JavaScript property assignment `v[key] = w`; on a primitive receiver
the sloppy-mode assignment is a silent no-op. -/
def jsSetField (v : Js) (key : String) (w : Js) : Js :=
  match v with
  | .obj fs => .obj (setFields fs key w)
  | v => v

/-- Nested assignment `v[k1][k2] = w`, a no-op unless `v[k1]` is an
object (sloppy-mode semantics). -/
def jsSetNested (v : Js) (k1 k2 : String) (w : Js) : Js :=
  match jsGet v k1 with
  | some (.obj fs) => jsSetField v k1 (.obj (setFields fs k2 w))
  | _ => v

/-- JavaScript truthiness of a value. -/
def jsTruthy : Js → Bool
  | .null => false
  | .bool b => b
  | .num n => n != 0
  | .str s => s != ""
  | .obj _ => true

/-- Truthiness of a possibly-undefined string (absent and `""` are
falsy). -/
def optTruthy : Option String → Bool
  | some s => s != ""
  | none => false

/-- Truthiness of a possibly-undefined JavaScript value. -/
def optJsTruthy : Option Js → Bool
  | some v => jsTruthy v
  | none => false

/-- Nullish normalisation: `null` behaves like `undefined` for the `??`
operator. -/
def jsNN : Option Js → Option Js
  | some .null => none
  | o => o

/-- String coercion of a possibly-undefined value, as performed by
template literals and string concatenation. -/
def jsTemplate : Option Js → String
  | none => "undefined"
  | some .null => "null"
  | some (.bool true) => "true"
  | some (.bool false) => "false"
  | some (.num n) => toString n
  | some (.str s) => s
  | some (.obj _) => "[object Object]"

/-- JSON string escaping for quotes and backslashes (control characters
do not occur in the verified inputs). -/
def jsonEscapeChar (c : Char) : String :=
  if c = '"' then "\\\"" else if c = '\\' then "\\\\" else String.singleton c

/-- Escape a string for inclusion in JSON output. -/
def jsonEscape (s : String) : String :=
  String.join (s.data.map jsonEscapeChar)

/-- A JSON string literal. -/
def jsonQuote (s : String) : String := "\"" ++ jsonEscape s ++ "\""

/- `JSON.stringify` on the embedded value type. -/
mutual
def Js.stringify : Js → String
  | .null => "null"
  | .bool true => "true"
  | .bool false => "false"
  | .num n => toString n
  | .str s => jsonQuote s
  | .obj fs => "\x7b" ++ JsFields.stringifyFields fs ++ "\x7d"
def JsFields.stringifyFields : JsFields → String
  | .nil => ""
  | .cons k v .nil => jsonQuote k ++ ":" ++ Js.stringify v
  | .cons k v (.cons k2 v2 r) =>
      jsonQuote k ++ ":" ++ Js.stringify v ++ "," ++ JsFields.stringifyFields (.cons k2 v2 r)
end

/- `removeEmptyProperties` from response.utils.ts: recursively delete
properties whose value is `null` and properties whose value is an object
left with no own keys.  The source mutates in place; the embedding
returns the cleaned value. -/
mutual
def removeEmptyProperties : Js → Js
  | .obj fs => .obj (removeEmptyPropertiesFields fs)
  | v => v
def removeEmptyPropertiesFields : JsFields → JsFields
  | .nil => .nil
  | .cons k v r =>
    match v with
    | .null => removeEmptyPropertiesFields r
    | .obj fs =>
      match removeEmptyPropertiesFields fs with
      | .nil => removeEmptyPropertiesFields r
      | .cons k2 v2 r2 => .cons k (.obj (.cons k2 v2 r2)) (removeEmptyPropertiesFields r)
    | v => .cons k v (removeEmptyPropertiesFields r)
end

/- Invariant established by `removeEmptyProperties`: at every depth no
property is `null` and no property is an object with zero own keys. -/
mutual
def noNullNoEmpty : Js → Bool
  | .obj fs => noNullNoEmptyFields fs
  | _ => true
def noNullNoEmptyFields : JsFields → Bool
  | .nil => true
  | .cons _ v r =>
    (match v with
     | .null => false
     | .obj .nil => false
     | .obj (.cons k2 v2 r2) => noNullNoEmptyFields (.cons k2 v2 r2)
     | _ => true) && noNullNoEmptyFields r
end

/-- Object spread `\x7b ...defaults, ...request \x7d`: default keys keep
their position, keys present in the request take the request value, and
request-only keys are appended. -/
def overrideFields : JsFields → JsFields → JsFields
  | .nil, _ => .nil
  | .cons k v rest, r =>
    .cons k (match fsGet r k with | some w => w | none => v) (overrideFields rest r)

/-- Fields of the spread request whose key has no binding among the
defaults. -/
def extraFields : JsFields → JsFields → JsFields
  | .nil, _ => .nil
  | .cons k v rest, d =>
    match fsGet d k with
    | some _ => extraFields rest d
    | none => .cons k v (extraFields rest d)

/-- Concatenation of field lists. -/
def fsAppend : JsFields → JsFields → JsFields
  | .nil, b => b
  | .cons k v r, b => .cons k v (fsAppend r b)

/-- The field list contributed by a spread operand: objects contribute
their fields, primitives contribute nothing (spreading a string, which
would contribute index keys, does not occur in the verified flows). -/
def objFields : Js → JsFields
  | .obj fs => fs
  | _ => .nil

/-- `\x7b ...defaults, ...request \x7d` as an object value. -/
def jsSpread (defaults : JsFields) (request : Js) : Js :=
  .obj (fsAppend (overrideFields defaults (objFields request))
                 (extraFields (objFields request) defaults))

/-- A thrown JavaScript value: an `Error` instance (name, message,
stack), a `CustomError` (which extends `Error` and adds a status code),
or a thrown non-`Error` value. -/
inductive JsError where
  | err (name message stack : String) : JsError
  | custom (statusCode : Nat) (message stack : String) : JsError
  | nonError : JsError

/-- `new CustomError(code, message)` as thrown by the embedded code (the
host-dependent stack text is irrelevant to every claim and modelled as
empty). -/
def customErr (statusCode : Nat) (message : String) : JsError :=
  .custom statusCode message ""

/-- The message extraction of `handleError`: `error instanceof Error`
yields the message, anything else yields `Unknown error`. -/
def errMessage : JsError → String
  | .err _ m _ => m
  | .custom _ m _ => m
  | .nonError => "Unknown error"

/-- `error.stack` of a thrown `Error` (empty for non-errors, which never
reach the only read site). -/
def stackOf : JsError → String
  | .err _ _ st => st
  | .custom _ _ st => st
  | .nonError => ""

/-- The `SyntaxError` thrown by the host `JSON.parse` on invalid input
(the host-dependent message text is irrelevant to every claim). -/
def jsonParseError : JsError :=
  .err "SyntaxError" "Unexpected token in JSON" ""

/-- The `TypeError` thrown by reading a property of `null`. -/
def typeErrorNullRead (prop : String) : JsError :=
  .err "TypeError" ("Cannot read properties of null (reading \x27" ++ prop ++ "\x27)") ""

/-- commercetools CentPrecisionMoney as used by the embedded code. -/
structure Money where
  centAmount : Int
  currencyCode : String
  fractionDigits : Nat

/-- A commercetools transaction attached to the triggering event or to
the payment. -/
structure CtTransaction where
  id : String
  ttype : String
  interactionId : Option String
  custom : Option (List (String × String))

/-- The slice of a commercetools Payment read by the embedded code.
Custom fields hold string values (the request fields and ids). -/
structure Payment where
  custom : Option (List (String × String))
  amountPlanned : Option Money
  transactions : List CtTransaction
  interfaceId : Option String

/-- The `PaymentWithOptionalTransaction` input of the payment handlers. -/
structure PaymentWithOptionalTransaction where
  payment : Option Payment
  transaction : Option CtTransaction

/-- The slice of a commercetools Customer read by the embedded code. -/
structure Customer where
  id : String
  custom : Option (List (String × String))

/-- The `CustomerReference` resource of the customer controller. -/
structure CustomerReference where
  obj : Option Customer

/-- Custom-field lookup on a field list. -/
def ctGet : List (String × String) → String → Option String
  | [], _ => none
  | (k, v) :: r, key => if k == key then some v else ctGet r key

/-- Custom-field lookup through the optional `custom` container
(`resource?.custom?.fields[key]`). -/
def ctGetO (custom : Option (List (String × String))) (key : String) : Option String :=
  match custom with
  | some fs => ctGet fs key
  | none => none

/-- A commercetools update action produced by the embedded code.
`setField` covers both `setCustomField` and `setTransactionCustomField`,
whose `action` string the source computes from the truthiness of the
transaction id; the record mirrors the pushed object. -/
inductive UpdateAction where
  | addInterfaceInteraction (typeKey : String) (fieldType : String) (data : String) (timestamp : String)
  | setField (action : String) (transactionId : Option String) (name : String) (value : Option String)
  | addTransaction (ttype : String) (centAmount : Int) (currencyCode : Option String)
      (interactionId : Option Js) (timestamp : Option Js) (state : String)
  | setInterfaceId (interfaceId : Option Js)
  | setStatusInterfaceCode (interfaceCode : Option Js)
  | setStatusInterfaceText (interfaceText : Option Js)
  | setMethodInfoMethod (method : String)

/-- One gateway (braintree.service) invocation, recorded with its
arguments so that theorems can speak about which calls a handler
performs. -/
inductive GwCall where
  | refundCall (transactionId amount : Option Js)
  | submitForSettlementCall (transactionId amount : Option Js)
  | voidCall (transactionId : Option Js)
  | transactionSaleCall (request : Js)
  | clientTokenCall (request : Js)
  | findCustomerCall (customerId : Js)
  | createCustomerCall (request : Js)
  | createPaymentMethodCall (request : Js)

/-- The host environment of the embedded code: `JSON.parse`, the current
timestamp, the two process environment variables, the IEEE-double amount
rendering `amountString c f` standing for
`String(c * Math.pow(10, -f || 0))` (binary floating point is outside
the embedding), the braintree.service gateway wrappers and the map.utils
helpers (all of which live outside the three embedded source files and
are therefore parameters of the embedding). -/
structure Env where
  jsonParse : String → Option Js
  timestamp : String
  merchantAccount : Option String
  autocapture : Bool
  amountString : Int → Nat → String
  braintreeRefund : Option Js → Option Js → Except JsError Js
  braintreeSubmitForSettlement : Option Js → Option Js → Except JsError Js
  braintreeVoidTransaction : Option Js → Except JsError Js
  transactionSale : Js → Except JsError Js
  getClientToken : Js → Except JsError Js
  findCustomer : Js → Except JsError Js
  createCustomer : Js → Except JsError Js
  createPaymentMethod : Js → Except JsError Js
  mapCustomerToBraintreeCreateRequest : Customer → String → Js
  mapBraintreeMoneyToCommercetoolsMoney : Option Js → Option Nat → Int
  mapBraintreeStatusToCommercetoolsTransactionState : Option Js → String
  mapBraintreeStatusToCommercetoolsTransactionType : Option Js → String

/-- The interface-interaction type key imported from connector/actions
(its literal value lives outside the embedded files and no claim depends
on it). -/
def BRAINTREE_PAYMENT_INTERACTION_TYPE_KEY : String := "braintree-payment-interaction"

/-- `stringifyData` from response.utils.ts: strings pass through,
everything else is `JSON.stringify`-ed. -/
def stringifyData : Js → String
  | .str s => s
  | v => Js.stringify v

/-- `typeof v === \x27object\x27` (true for objects and for `null`). -/
def jsIsObjectTyped : Js → Bool
  | .obj _ => true
  | .null => true
  | _ => false

/-- `handleRequest` from response.utils.ts.  The source mutates the
request in place via `removeEmptyProperties` before serialising it; the
embedding returns the cleaned request (used by the caller for the
subsequent gateway call) together with the produced actions. -/
def handleRequest (ts requestName : String) (request : Js) : Js × List UpdateAction :=
  let request := if jsIsObjectTyped request then removeEmptyProperties request else request
  (request,
   [ .addInterfaceInteraction BRAINTREE_PAYMENT_INTERACTION_TYPE_KEY
       (requestName ++ "Request") (stringifyData request) ts ])

/-- `handleResponse` from response.utils.ts: write the response custom
field, optionally add an interface interaction, and clear the request
custom field; the action kind is chosen by the truthiness of the
transaction id.  Returns the cleaned response (the source mutates it in
place) together with the actions. -/
def handleResponse (ts requestName : String) (response : Js) (transactionId : Option String)
    (addInterfaceInteraction : Bool) : Js × List UpdateAction :=
  let response := if jsIsObjectTyped response then removeEmptyProperties response else response
  (response,
   [ .setField (if optTruthy transactionId then "setTransactionCustomField" else "setCustomField")
       transactionId (requestName ++ "Response") (some (stringifyData response)) ]
   ++ (if addInterfaceInteraction then
        [ .addInterfaceInteraction BRAINTREE_PAYMENT_INTERACTION_TYPE_KEY
            (requestName ++ "Response") (stringifyData response) ts ]
       else [])
   ++ [ .setField (if optTruthy transactionId then "setTransactionCustomField" else "setCustomField")
          transactionId (requestName ++ "Request") none ])

/-- The response handler imported by payment.service.ts under the name
`handlePaymentResponse`; its implementation is `handleResponse` of
response.utils.ts (the claim sources identify the two), with the
interface interaction always added. -/
def handlePaymentResponse (ts requestName : String) (response : Js)
    (transactionId : Option String) : Js × List UpdateAction :=
  handleResponse ts requestName response transactionId true

/-- The serialised `\x7bsuccess: false, message\x7d` body written by
`handleError`. -/
def errorResponseValue (msg : String) : String :=
  Js.stringify (.obj (.cons "success" (.bool false) (.cons "message" (.str msg) .nil)))

/-- `handleError` from response.utils.ts: exactly two actions, the error
response body and the cleared request field. -/
def handleError (requestName : String) (e : JsError) (transactionId : Option String) :
    List UpdateAction :=
  [ .setField (if optTruthy transactionId then "setTransactionCustomField" else "setCustomField")
      transactionId (requestName ++ "Response") (some (errorResponseValue (errMessage e))),
    .setField (if optTruthy transactionId then "setTransactionCustomField" else "setCustomField")
      transactionId (requestName ++ "Request") none ]

/-- Left-pad a digit string with zeros to the given length. -/
def padLeftZeros (s : String) (n : Nat) : String :=
  String.mk (List.replicate (n - s.length) '0') ++ s

/-- Drop trailing zero characters. -/
def stripTrailingZeros (s : String) : String :=
  String.mk (s.data.reverse.dropWhile (fun c => c = '0')).reverse

/-- The exact decimal rendering of `centAmount * 10 ^ (-fractionDigits)`
without trailing zeros.  This is NOT the source computation: the source
computes `String(centAmount * Math.pow(10, -fractionDigits || 0))` in
IEEE doubles, whose rendering can differ (`String(1999 * 0.01)` is
`19.990000000000002`, and tiny values render in exponent notation such
as `1e-7`); the handlers therefore take the rendering from
`Env.amountString`, and this function only instantiates that field in
the concrete sample environments below, whose theorems use it solely at
inputs (100 cents, 2 fraction digits) where it coincides with the IEEE
result. -/
def amountToString (centAmount : Int) (fractionDigits : Nat) : String :=
  if fractionDigits = 0 then toString centAmount
  else
    let n := centAmount.natAbs
    let p := 10 ^ fractionDigits
    let ip := n / p
    let fp := stripTrailingZeros (padLeftZeros (toString (n % p)) fractionDigits)
    let core := toString ip ++ (if fp = "" then "" else "." ++ fp)
    (if centAmount < 0 && n != 0 then "-" else "") ++ core

/-- `process.env.BRAINTREE_MERCHANT_ACCOUNT || undefined`: the merchant
account field is present only when the variable is set and non-empty. -/
def merchantField (env : Env) (rest : JsFields) : JsFields :=
  match env.merchantAccount with
  | some m => if m = "" then rest else .cons "merchantAccountId" (.str m) rest
  | none => rest

/-- The default fields of the transaction-sale request built by
parseTransactionSaleRequest, in source insertion order: amount, merchant
account, channel and options. -/
def transactionSaleDefaults (env : Env) (ap : Money) (request : Js) : JsFields :=
  .cons "amount" (.str (env.amountString ap.centAmount ap.fractionDigits))
    (merchantField env
      (.cons "channel" (.str "commercetools")
        (.cons "options"
          (.obj (.cons "submitForSettlement" (.bool env.autocapture)
            (.cons "storeInVaultOnSuccess"
              (.bool (optJsTruthy (jsGet request "customerId")
                      || optJsTruthy (jsGet2 request "customer" "id"))) .nil)))
          .nil)))

/-- `parseTransactionSaleRequest` from payment.service.ts: require the
request field and `amountPlanned`, fall back to treating a non-JSON field
value as a payment method nonce, and spread the parsed request over the
computed defaults (so the parsed request overrides them).  A field value
parsing to JSON `null` throws: building the defaults evaluates
`!!request.customer?.id`, a property read on null (the preceding
`!!request?.customerId` is optional-chained and yields false, so the
read is always reached). -/
def parseTransactionSaleRequest (env : Env) (payment : Payment) : Except JsError Js :=
  match ctGetO payment.custom "transactionSaleRequest" with
  | none => .error (customErr 500 "transactionSaleRequest is missing")
  | some raw =>
    if raw = "" then .error (customErr 500 "transactionSaleRequest is missing")
    else
      match payment.amountPlanned with
      | none => .error (customErr 500 "amountPlanned is missing")
      | some ap =>
        let request :=
          match env.jsonParse raw with
          | some v => v
          | none => .obj (.cons "paymentMethodNonce" (.str raw) .nil)
        match request with
        | .null => .error (typeErrorNullRead "customer")
        | request => .ok (jsSpread (transactionSaleDefaults env ap request) request)

/-- `findSuitableTransactionId` from payment.service.ts: prefer the
event transaction, otherwise the last transaction of the wanted type on
the payment, otherwise throw. -/
def findSuitableTransactionId (pwt : PaymentWithOptionalTransaction) (ttype : String) :
    Except JsError (Option String) :=
  match pwt.transaction with
  | some t => .ok t.interactionId
  | none =>
    match pwt.payment with
    | none => .error (customErr 500 "The payment has no suitable transaction")
    | some p =>
      match (p.transactions.filter (fun t => t.ttype == ttype)).getLast? with
      | none => .error (customErr 500 "The payment has no suitable transaction")
      | some t => .ok t.interactionId

/-- `parseRequest` from payment.service.ts: read the request field from
the payment or the event transaction, treat a non-JSON value as a plain
transaction id, and backfill a missing transaction id via
`findSuitableTransactionId` (the backfill assignment is a no-op on a
primitive parse result, and reading a property of a parsed `null`
throws). -/
def parseRequest (env : Env) (pwt : PaymentWithOptionalTransaction)
    (requestField ttype : String) : Except JsError Js :=
  let fromPayment := pwt.payment.bind (fun p => ctGetO p.custom requestField)
  let fromTransaction := pwt.transaction.bind (fun t => ctGetO t.custom requestField)
  let requestJSON := match fromPayment with | some s => some s | none => fromTransaction
  match requestJSON with
  | none => .error (customErr 500 (requestField ++ " is missing"))
  | some raw =>
    if raw = "" then .error (customErr 500 (requestField ++ " is missing"))
    else
      let request :=
        match env.jsonParse raw with
        | some v => v
        | none => .obj (.cons "transactionId" (.str raw) .nil)
      match request with
      | .null => .error (typeErrorNullRead "transactionId")
      | request =>
        match jsNN (jsGet request "transactionId") with
        | some _ => .ok request
        | none =>
          match findSuitableTransactionId pwt ttype with
          | .error e => .error e
          | .ok (some s) => .ok (jsSetField request "transactionId" (.str s))
          | .ok none => .ok request

/-- `getPaymentMethodHint` from payment.service.ts. -/
def getPaymentMethodHint (response : Js) : String :=
  match jsGet response "paymentInstrumentType" with
  | some (.str "credit_card") =>
      jsTemplate (jsGet2 response "creditCard" "cardType") ++ " "
        ++ jsTemplate (jsGet2 response "creditCard" "maskedNumber")
  | some (.str "paypal_account") =>
      (match jsNN (jsGet2 response "paypalAccount" "payerEmail") with
       | some v => jsTemplate (some v) | none => "")
  | some (.str "venmo_account") =>
      (match jsNN (jsGet2 response "venmoAccount" "username") with
       | some v => jsTemplate (some v) | none => "")
  | some (.str "android_pay_card") =>
      (match jsNN (jsGet2 response "androidPayCard" "sourceDescription") with
       | some v => jsTemplate (some v) | none => "")
  | some (.str "apple_pay_card") =>
      (match jsNN (jsGet2 response "applePayCard" "sourceDescription") with
       | some v => jsTemplate (some v) | none => "")
  | _ => ""

/-- `updatePaymentFields` from payment.service.ts: the three
payment-status update actions built from the gateway response. -/
def updatePaymentFields (response : Js) : List UpdateAction :=
  let hint := getPaymentMethodHint response
  [ .setStatusInterfaceCode (jsGet response "status"),
    .setStatusInterfaceText (jsGet response "status"),
    .setMethodInfoMethod
      (jsTemplate (jsGet response "paymentInstrumentType")
        ++ (if hint != "" then " (" ++ hint ++ ")" else "")) ]

/-- The `addTransaction` update action pushed by the three
transaction-modifying handlers and the sale handler. -/
def mkAddTransaction (env : Env) (ttype : String) (amountPlanned : Option Money)
    (response : Js) : UpdateAction :=
  .addTransaction ttype
    (env.mapBraintreeMoneyToCommercetoolsMoney (jsGet response "amount")
      (amountPlanned.map Money.fractionDigits))
    (amountPlanned.map Money.currencyCode)
    (jsGet response "id") (jsGet response "updatedAt")
    (env.mapBraintreeStatusToCommercetoolsTransactionState (jsGet response "status"))

/-- `refund` from payment.service.ts. -/
def refund (env : Env) (pwt : PaymentWithOptionalTransaction) :
    Except JsError (List UpdateAction) × List GwCall :=
  match pwt.payment with
  | none => (.ok [], [])
  | some p =>
    if optTruthy (ctGetO p.custom "refundRequest") = false then (.ok [], [])
    else
      let tid := pwt.transaction.map CtTransaction.id
      match parseRequest env pwt "refundRequest" "Charge" with
      | .error e => (.ok (handleError "refund" e tid), [])
      | .ok request0 =>
        let (request, ua1) := handleRequest env.timestamp "refund" request0
        let gwTid := jsGet request "transactionId"
        let gwAmt := jsGet request "amount"
        match env.braintreeRefund gwTid gwAmt with
        | .error e => (.ok (handleError "refund" e tid), [.refundCall gwTid gwAmt])
        | .ok response0 =>
          let (response, ua2) := handlePaymentResponse env.timestamp "refund" response0 tid
          (.ok (ua1 ++ ua2
                ++ [mkAddTransaction env "Refund" p.amountPlanned response]
                ++ updatePaymentFields response),
           [.refundCall gwTid gwAmt])

/-- `submitForSettlement` from payment.service.ts. -/
def submitForSettlement (env : Env) (pwt : PaymentWithOptionalTransaction) :
    Except JsError (List UpdateAction) × List GwCall :=
  match pwt.payment with
  | none => (.ok [], [])
  | some p =>
    if optTruthy (ctGetO p.custom "submitForSettlementRequest") = false then (.ok [], [])
    else
      let tid := pwt.transaction.map CtTransaction.id
      match parseRequest env pwt "submitForSettlementRequest" "Authorization" with
      | .error e => (.ok (handleError "submitForSettlement" e tid), [])
      | .ok request0 =>
        let (request, ua1) := handleRequest env.timestamp "submitForSettlement" request0
        let gwTid := jsGet request "transactionId"
        let gwAmt := jsGet request "amount"
        match env.braintreeSubmitForSettlement gwTid gwAmt with
        | .error e =>
          (.ok (handleError "submitForSettlement" e tid), [.submitForSettlementCall gwTid gwAmt])
        | .ok response0 =>
          let (response, ua2) :=
            handlePaymentResponse env.timestamp "submitForSettlement" response0 tid
          (.ok (ua1 ++ ua2
                ++ [mkAddTransaction env "Charge" p.amountPlanned response]
                ++ updatePaymentFields response),
           [.submitForSettlementCall gwTid gwAmt])

/-- `voidTransaction` from payment.service.ts. -/
def voidTransaction (env : Env) (pwt : PaymentWithOptionalTransaction) :
    Except JsError (List UpdateAction) × List GwCall :=
  match pwt.payment with
  | none => (.ok [], [])
  | some p =>
    if optTruthy (ctGetO p.custom "voidRequest") = false then (.ok [], [])
    else
      let tid := pwt.transaction.map CtTransaction.id
      match parseRequest env pwt "voidRequest" "Authorization" with
      | .error e => (.ok (handleError "void" e tid), [])
      | .ok request0 =>
        let (request, ua1) := handleRequest env.timestamp "void" request0
        let gwTid := jsGet request "transactionId"
        match env.braintreeVoidTransaction gwTid with
        | .error e => (.ok (handleError "void" e tid), [.voidCall gwTid])
        | .ok response0 =>
          let (response, ua2) := handlePaymentResponse env.timestamp "void" response0 tid
          (.ok (ua1 ++ ua2
                ++ [mkAddTransaction env "CancelAuthorization" p.amountPlanned response]
                ++ updatePaymentFields response),
           [.voidCall gwTid])

/-- `handleTransactionSaleRequest` from payment.service.ts. -/
def handleTransactionSaleRequest (env : Env) (payment : Option Payment) :
    Except JsError (List UpdateAction) × List GwCall :=
  match payment with
  | none => (.ok [], [])
  | some p =>
    if optTruthy (ctGetO p.custom "transactionSaleRequest") = false then (.ok [], [])
    else
      match parseTransactionSaleRequest env p with
      | .error e => (.ok (handleError "transactionSale" e none), [])
      | .ok request0 =>
        let (request, ua1) := handleRequest env.timestamp "transactionSale" request0
        match env.transactionSale request with
        | .error e => (.ok (handleError "transactionSale" e none), [.transactionSaleCall request])
        | .ok response0 =>
          let (response, ua2) :=
            handlePaymentResponse env.timestamp "transactionSale" response0 none
          (.ok (ua1 ++ ua2
                ++ [mkAddTransaction env
                      (env.mapBraintreeStatusToCommercetoolsTransactionType
                        (jsGet response "status"))
                      p.amountPlanned response]
                ++ (if optTruthy p.interfaceId = false
                      then [.setInterfaceId (jsGet response "id")] else [])
                ++ updatePaymentFields response),
           [.transactionSaleCall request])

/-- `handleGetClientTokenRequest` from payment.service.ts.  Note that
`JSON.parse` of the request field happens outside the try block, so a
non-JSON field value makes the handler throw without producing any
update actions. -/
def handleGetClientTokenRequest (env : Env) (payment : Option Payment) :
    Except JsError (List UpdateAction) × List GwCall :=
  match payment with
  | none => (.ok [], [])
  | some p =>
    match ctGetO p.custom "getClientTokenRequest" with
    | none => (.ok [], [])
    | some raw =>
      if raw = "" then (.ok [], [])
      else
        match env.jsonParse raw with
        | none => (.error jsonParseError, [])
        | some req0 =>
          let request := jsSpread (merchantField env .nil) req0
          let (request, ua1) := handleRequest env.timestamp "getClientToken" request
          match env.getClientToken request with
          | .error e => (.ok (handleError "getClientToken" e none), [.clientTokenCall request])
          | .ok response =>
            (.ok (ua1 ++ (handlePaymentResponse env.timestamp "getClientToken" response none).2),
             [.clientTokenCall request])

/-- The `\x7bstatusCode, actions\x7d` object returned by the customer
update handler. -/
structure CtrlResult where
  statusCode : Nat
  actions : List UpdateAction

/-- Modelled from the spec: `handleCustomerResponse` is imported by
customer.controller.ts from response.utils but is not among the embedded
source files.  Following the spec (the handlers build "an ordered list of
idempotent update actions (including clearing the originating request
field)"), it writes the serialised response to the `<name>Response`
custom field of the customer and clears the `<name>Request` field. -/
def handleCustomerResponse (requestName : String) (response : Js) (_customer : Customer) :
    List UpdateAction :=
  [ .setField "setCustomField" none (requestName ++ "Response")
      (some (stringifyData (removeEmptyProperties response))),
    .setField "setCustomField" none (requestName ++ "Request") none ]

/-- `parseVaultRequest` from customer.controller.ts: a non-JSON vault
request becomes the payment method nonce; with a customerId custom field
the request is completed into a payment-method create request (forcing
`failOnDuplicatePaymentMethod`), otherwise it is mapped into a customer
create request. -/
def parseVaultRequest (env : Env) (customer : Customer) : Js :=
  let request :=
    match ctGetO customer.custom "vaultRequest" with
    | some s =>
      (match env.jsonParse s with
       | some v => v
       | none => .obj (.cons "paymentMethodNonce" (.str s) .nil))
    | none => .obj .nil
  match ctGetO customer.custom "customerId" with
  | some cid =>
    if cid = "" then env.mapCustomerToBraintreeCreateRequest customer (Js.stringify request)
    else
      let r1 := jsSetField request "customerId" (.str cid)
      let r2 := if optJsTruthy (jsGet r1 "options") then r1
                else jsSetField r1 "options" (.obj .nil)
      jsSetNested r2 "options" "failOnDuplicatePaymentMethod" (.bool true)
  | none => env.mapCustomerToBraintreeCreateRequest customer (Js.stringify request)

/-- The findRequest branch of the customer update handler.  `JSON.parse`
of the field runs outside the branch-local try, so a non-JSON value
propagates to the outer catch (`Except.error`); a gateway failure is
caught locally and replaces the accumulated actions with
`handleError` actions. -/
def findStep (env : Env) (customer : Customer) (acc : List UpdateAction) :
    Except JsError (List UpdateAction) × List GwCall :=
  match ctGetO customer.custom "findRequest" with
  | none => (.ok acc, [])
  | some raw =>
    if raw = "" then (.ok acc, [])
    else
      match env.jsonParse raw with
      | none => (.error jsonParseError, [])
      | some request =>
        let customerId : Js :=
          match jsNN (jsGet request "customerId") with
          | some v => v
          | none =>
            match ctGetO customer.custom "customerId" with
            | some s => .str s
            | none => .str customer.id
        match env.findCustomer customerId with
        | .ok response =>
          (.ok (acc ++ handleCustomerResponse "find" response customer),
           [.findCustomerCall customerId])
        | .error e => (.ok (handleError "find" e none), [.findCustomerCall customerId])

/-- The createRequest branch of the customer update handler: map the
customer, require an id, call the gateway; any failure is caught locally
and replaces the accumulated actions with `handleError` actions. -/
def createStep (env : Env) (customer : Customer) (acc : List UpdateAction) :
    List UpdateAction × List GwCall :=
  match ctGetO customer.custom "createRequest" with
  | none => (acc, [])
  | some raw =>
    if raw = "" then (acc, [])
    else
      let request := env.mapCustomerToBraintreeCreateRequest customer raw
      if optJsTruthy (jsGet request "id") = false then
        (handleError "create" (customErr 400 "field customerId is missing") none, [])
      else
        match env.createCustomer request with
        | .ok response =>
          (acc ++ handleCustomerResponse "create" response customer,
           [.createCustomerCall request])
        | .error e => (handleError "create" e none, [.createCustomerCall request])

/-- The vaultRequest branch of the customer update handler: vault via
createPaymentMethod when a customerId custom field is present, via
createCustomer otherwise; a failure is caught locally and replaces the
accumulated actions with `handleError` actions. -/
def vaultStep (env : Env) (customer : Customer) (acc : List UpdateAction) :
    List UpdateAction × List GwCall :=
  match ctGetO customer.custom "vaultRequest" with
  | none => (acc, [])
  | some raw =>
    if raw = "" then (acc, [])
    else
      let request := parseVaultRequest env customer
      let gw :=
        if optTruthy (ctGetO customer.custom "customerId") = false then
          (env.createCustomer request, GwCall.createCustomerCall request)
        else
          (env.createPaymentMethod request, GwCall.createPaymentMethodCall request)
      match gw.1 with
      | .ok response =>
        (acc ++ handleCustomerResponse "vault" response customer, [gw.2])
      | .error e => (handleError "vault" e none, [gw.2])

/-- The outer catch of the customer update handler: an `Error` is
rewrapped into a `CustomError(400, ...)` and rethrown, a non-`Error`
thrown value falls through and the handler returns `undefined`. -/
def updateOuterCatch (e : JsError) : Except JsError (Option CtrlResult) :=
  match e with
  | .nonError => .ok none
  | e => .error (customErr 400 ("Internal server error on CustomerController: " ++ stackOf e))

/-- `update` from customer.controller.ts: require the customer object,
run the find, create and vault branches in order, and return the
accumulated actions with status code 200. -/
def update (env : Env) (resource : CustomerReference) :
    Except JsError (Option CtrlResult) × List GwCall :=
  match resource.obj with
  | none => (updateOuterCatch (customErr 400 "customer obj is missing"), [])
  | some customer =>
    match findStep env customer [] with
    | (.error e, calls1) => (updateOuterCatch e, calls1)
    | (.ok acc1, calls1) =>
      let (acc2, calls2) := createStep env customer acc1
      let (acc3, calls3) := vaultStep env customer acc2
      (.ok (some { statusCode := 200, actions := acc3 }), calls1 ++ calls2 ++ calls3)

/-- `customerController` from customer.controller.ts: `Create` is a
no-op returning `undefined`, `Update` delegates to `update`, anything
else throws a `CustomError` with status code 500. -/
def customerController (env : Env) (action : String) (resource : CustomerReference) :
    Except JsError (Option CtrlResult) × List GwCall :=
  if action = "Create" then (.ok none, [])
  else if action = "Update" then update env resource
  else
    (.error (customErr 500
      ("Internal Server Error - Resource not recognized. Allowed values are "
        ++ "\x27Create\x27 or \x27Update\x27.")), [])

/-- The five payment operation handlers, for claims quantifying over
them. -/
inductive PaymentOp where
  | refundOp | submitForSettlementOp | voidOp | saleOp | tokenOp

/-- The operation name used for action field names and interface
interactions. -/
def opName : PaymentOp → String
  | .refundOp => "refund"
  | .submitForSettlementOp => "submitForSettlement"
  | .voidOp => "void"
  | .saleOp => "transactionSale"
  | .tokenOp => "getClientToken"

/-- The custom field that triggers an operation. -/
def opField (op : PaymentOp) : String := opName op ++ "Request"

/-- The commercetools transaction type whose last transaction backfills
a missing transaction id (`Charge` for refund, `Authorization` for
submitForSettlement and void). -/
def opTransactionType : PaymentOp → String
  | .refundOp => "Charge"
  | _ => "Authorization"

/-- Dispatch to the five payment operation handlers. -/
def runOp : PaymentOp → Env → PaymentWithOptionalTransaction →
    Except JsError (List UpdateAction) × List GwCall
  | .refundOp => refund
  | .submitForSettlementOp => submitForSettlement
  | .voidOp => voidTransaction
  | .saleOp => fun env pwt => handleTransactionSaleRequest env pwt.payment
  | .tokenOp => fun env pwt => handleGetClientTokenRequest env pwt.payment

/-- The transaction id passed by each handler to `handleResponse` and
`handleError` (the event transaction id for the three
transaction-modifying handlers, absent for sale and client token). -/
def opErrorTid : PaymentOp → PaymentWithOptionalTransaction → Option String
  | .saleOp, _ => none
  | .tokenOp, _ => none
  | _, pwt => pwt.transaction.map CtTransaction.id

/-- The parse step performed by each of the four try-wrapped handlers. -/
def opParse : PaymentOp → Env → PaymentWithOptionalTransaction → Except JsError Js
  | .refundOp, env, pwt => parseRequest env pwt "refundRequest" "Charge"
  | .submitForSettlementOp, env, pwt =>
      parseRequest env pwt "submitForSettlementRequest" "Authorization"
  | .voidOp, env, pwt => parseRequest env pwt "voidRequest" "Authorization"
  | .saleOp, env, pwt =>
      (match pwt.payment with
       | some p => parseTransactionSaleRequest env p
       | none => .error (customErr 500 "transactionSaleRequest is missing"))
  | .tokenOp, _, _ => .error (customErr 500 "getClientTokenRequest has no parse step")

/-- The gateway call performed by each of the four try-wrapped handlers
on the (cleaned) parsed request. -/
def opGateway : PaymentOp → Env → Js → Except JsError Js
  | .refundOp, env, request =>
      env.braintreeRefund (jsGet request "transactionId") (jsGet request "amount")
  | .submitForSettlementOp, env, request =>
      env.braintreeSubmitForSettlement (jsGet request "transactionId") (jsGet request "amount")
  | .voidOp, env, request => env.braintreeVoidTransaction (jsGet request "transactionId")
  | .saleOp, env, request => env.transactionSale request
  | .tokenOp, env, request => env.getClientToken request

/-- The actions list of a handler result when it did not throw. -/
def okActions (r : Except JsError (List UpdateAction) × List GwCall) : List UpdateAction :=
  match r.1 with
  | .ok l => l
  | .error _ => []

/-- Setting a key makes it readable. -/
theorem fsGet_setFields_self (k : String) (v : Js) :
    (fs : JsFields) → fsGet (setFields fs k v) k = some v
  | .nil => by simp [setFields, fsGet]
  | .cons k0 v0 r => by
    by_cases h : k0 == k
    · simp [setFields, fsGet, h]
    · simp only [setFields, fsGet, h]
      simpa [h] using fsGet_setFields_self k v r

/-- Setting a key leaves other keys unchanged. -/
theorem fsGet_setFields_ne (k k2 : String) (v : Js) (h : (k2 == k) = false) :
    (fs : JsFields) → fsGet (setFields fs k v) k2 = fsGet fs k2
  | .nil => by
    have h2 : (k == k2) = false :=
      beq_eq_false_iff_ne.mpr (fun e => beq_eq_false_iff_ne.mp h e.symm)
    simp [setFields, fsGet, h2]
  | .cons k0 v0 r => by
    by_cases h0 : (k0 == k) = true
    · have hk : k0 = k := beq_iff_eq.mp h0
      have hne : (k0 == k2) = false :=
        beq_eq_false_iff_ne.mpr (fun e => beq_eq_false_iff_ne.mp h (hk ▸ e).symm)
      simp [setFields, fsGet, h0, hne]
    · have h0f : (k0 == k) = false := by simpa using h0
      by_cases h2 : (k0 == k2) = true
      · simp [setFields, fsGet, h0f, h2]
      · have h2f : (k0 == k2) = false := by simpa using h2
        simp only [setFields, fsGet, h0f, h2f, Bool.false_eq_true, if_false]
        exact fsGet_setFields_ne k k2 v h r

/-- `removeEmptyProperties` preserves a string-valued binding. -/
theorem fsGet_removeEmpty_str (k s : String) :
    (fs : JsFields) → fsGet fs k = some (.str s) →
      fsGet (removeEmptyPropertiesFields fs) k = some (.str s)
  | .nil, h => by simpa [fsGet] using h
  | .cons k0 v0 r, h => by
    by_cases h0 : (k0 == k) = true
    · have hv : v0 = .str s := by simpa [fsGet, h0] using h
      subst hv
      simp [removeEmptyPropertiesFields, fsGet, h0]
    · have h0f : (k0 == k) = false := by simpa using h0
      have hr : fsGet r k = some (.str s) := by simpa [fsGet, h0f] using h
      have ih2 := fsGet_removeEmpty_str k s r hr
      cases v0 with
      | null => simpa [removeEmptyPropertiesFields] using ih2
      | obj fs2 =>
        simp only [removeEmptyPropertiesFields]
        cases hfs2 : removeEmptyPropertiesFields fs2 with
        | nil => simpa using ih2
        | cons k2 v2 r2 => simpa [fsGet, h0f] using ih2
      | bool b => simpa [removeEmptyPropertiesFields, fsGet, h0f] using ih2
      | num n => simpa [removeEmptyPropertiesFields, fsGet, h0f] using ih2
      | str s2 => simpa [removeEmptyPropertiesFields, fsGet, h0f] using ih2

/-- `removeEmptyProperties` preserves the absence of a key. -/
theorem fsGet_removeEmpty_absent (k : String) :
    (fs : JsFields) → fsGet fs k = none →
      fsGet (removeEmptyPropertiesFields fs) k = none
  | .nil, _ => by simp [removeEmptyPropertiesFields, fsGet]
  | .cons k0 v0 r, h => by
    by_cases h0 : (k0 == k) = true
    · exact absurd h (by simp [fsGet, h0])
    · have h0f : (k0 == k) = false := by simpa using h0
      have hr : fsGet r k = none := by simpa [fsGet, h0f] using h
      have ih2 := fsGet_removeEmpty_absent k r hr
      cases v0 with
      | null => simpa [removeEmptyPropertiesFields] using ih2
      | obj fs2 =>
        simp only [removeEmptyPropertiesFields]
        cases hfs2 : removeEmptyPropertiesFields fs2 with
        | nil => simpa using ih2
        | cons k2 v2 r2 => simpa [fsGet, h0f] using ih2
      | bool b => simpa [removeEmptyPropertiesFields, fsGet, h0f] using ih2
      | num n => simpa [removeEmptyPropertiesFields, fsGet, h0f] using ih2
      | str s2 => simpa [removeEmptyPropertiesFields, fsGet, h0f] using ih2

/-- No two bindings share a key: the invariant of every object produced
by the host `JSON.parse` (JavaScript object keys are unique). -/
def fsNoDupKeys : JsFields → Bool
  | .nil => true
  | .cons k _ r => !(fsGet r k).isSome && fsNoDupKeys r

/-- On a duplicate-free field list, `removeEmptyProperties` erases a
nullish binding (absent or null). -/
theorem fsGet_removeEmpty_nullish (k : String) :
    (fs : JsFields) → fsNoDupKeys fs = true → jsNN (fsGet fs k) = none →
      fsGet (removeEmptyPropertiesFields fs) k = none
  | .nil, _, _ => by simp [removeEmptyPropertiesFields, fsGet]
  | .cons k0 v0 r, hnd, h => by
    have hndr : fsNoDupKeys r = true := by
      simp only [fsNoDupKeys, Bool.and_eq_true] at hnd
      exact hnd.2
    by_cases h0 : (k0 == k) = true
    · have hk : k0 = k := beq_iff_eq.mp h0
      have hv : v0 = .null := by
        cases v0 <;> simpa [fsGet, h0, jsNN] using h
      subst hv
      have habs : fsGet r k = none := by
        simp only [fsNoDupKeys, Bool.and_eq_true, Bool.not_eq_true'] at hnd
        have := hnd.1
        rw [hk] at this
        cases hg : fsGet r k with
        | none => rfl
        | some w => rw [hg] at this; simp at this
      simp only [removeEmptyPropertiesFields]
      exact fsGet_removeEmpty_absent k r habs
    · have h0f : (k0 == k) = false := by simpa using h0
      have hr : jsNN (fsGet r k) = none := by simpa [fsGet, h0f] using h
      have ih2 := fsGet_removeEmpty_nullish k r hndr hr
      cases v0 with
      | null => simpa [removeEmptyPropertiesFields] using ih2
      | obj fs2 =>
        simp only [removeEmptyPropertiesFields]
        cases hfs2 : removeEmptyPropertiesFields fs2 with
        | nil => simpa using ih2
        | cons k2 v2 r2 => simpa [fsGet, h0f] using ih2
      | bool b => simpa [removeEmptyPropertiesFields, fsGet, h0f] using ih2
      | num n => simpa [removeEmptyPropertiesFields, fsGet, h0f] using ih2
      | str s2 => simpa [removeEmptyPropertiesFields, fsGet, h0f] using ih2

/- One pass of `removeEmptyProperties` establishes the invariant: no
null-valued property and no empty-object-valued property at any depth. -/
mutual
theorem noNullNoEmpty_removeEmptyProperties :
    (v : Js) → noNullNoEmpty (removeEmptyProperties v) = true
  | .null => rfl
  | .bool _ => rfl
  | .num _ => rfl
  | .str _ => rfl
  | .obj fs => by
    simpa [removeEmptyProperties, noNullNoEmpty] using
      noNullNoEmptyFields_removeEmptyPropertiesFields fs
theorem noNullNoEmptyFields_removeEmptyPropertiesFields :
    (fs : JsFields) → noNullNoEmptyFields (removeEmptyPropertiesFields fs) = true
  | .nil => rfl
  | .cons k v r => by
    have hr := noNullNoEmptyFields_removeEmptyPropertiesFields r
    cases v with
    | null => simpa [removeEmptyPropertiesFields] using hr
    | bool b => simpa [removeEmptyPropertiesFields, noNullNoEmptyFields] using hr
    | num n => simpa [removeEmptyPropertiesFields, noNullNoEmptyFields] using hr
    | str s => simpa [removeEmptyPropertiesFields, noNullNoEmptyFields] using hr
    | obj fs2 =>
      have h2 := noNullNoEmptyFields_removeEmptyPropertiesFields fs2
      simp only [removeEmptyPropertiesFields]
      cases hfs2 : removeEmptyPropertiesFields fs2 with
      | nil => simpa using hr
      | cons k2 v2 r2 =>
        rw [hfs2] at h2
        simp [noNullNoEmptyFields, h2, hr]
end

/- A value satisfying the invariant is a fixed point of
`removeEmptyProperties`. -/
mutual
theorem removeEmptyProperties_of_noNullNoEmpty :
    (v : Js) → noNullNoEmpty v = true → removeEmptyProperties v = v
  | .null, _ => rfl
  | .bool _, _ => rfl
  | .num _, _ => rfl
  | .str _, _ => rfl
  | .obj fs, h => by
    simp only [removeEmptyProperties]
    rw [removeEmptyPropertiesFields_of_noNullNoEmptyFields fs (by simpa [noNullNoEmpty] using h)]
theorem removeEmptyPropertiesFields_of_noNullNoEmptyFields :
    (fs : JsFields) → noNullNoEmptyFields fs = true → removeEmptyPropertiesFields fs = fs
  | .nil, _ => rfl
  | .cons k v r, h => by
    cases v with
    | null => exact absurd h (by simp [noNullNoEmptyFields])
    | bool b =>
      have hrt : noNullNoEmptyFields r = true := by
        simpa [noNullNoEmptyFields] using h
      simp [removeEmptyPropertiesFields,
        removeEmptyPropertiesFields_of_noNullNoEmptyFields r hrt]
    | num n =>
      have hrt : noNullNoEmptyFields r = true := by
        simpa [noNullNoEmptyFields] using h
      simp [removeEmptyPropertiesFields,
        removeEmptyPropertiesFields_of_noNullNoEmptyFields r hrt]
    | str s =>
      have hrt : noNullNoEmptyFields r = true := by
        simpa [noNullNoEmptyFields] using h
      simp [removeEmptyPropertiesFields,
        removeEmptyPropertiesFields_of_noNullNoEmptyFields r hrt]
    | obj fs2 =>
      cases fs2 with
      | nil => exact absurd h (by simp [noNullNoEmptyFields])
      | cons k2 v2 r2 =>
        have hboth : noNullNoEmptyFields (JsFields.cons k2 v2 r2) = true ∧
            noNullNoEmptyFields r = true := by
          simpa [noNullNoEmptyFields, Bool.and_eq_true] using h
        have hfix :=
          removeEmptyPropertiesFields_of_noNullNoEmptyFields (.cons k2 v2 r2) hboth.1
        have hr := removeEmptyPropertiesFields_of_noNullNoEmptyFields r hboth.2
        simp only [removeEmptyPropertiesFields]
        rw [hfix, hr]
end

/-- `removeEmptyProperties` is idempotent. -/
theorem removeEmptyProperties_idem (v : Js) :
    removeEmptyProperties (removeEmptyProperties v) = removeEmptyProperties v :=
  removeEmptyProperties_of_noNullNoEmpty _ (noNullNoEmpty_removeEmptyProperties v)

/-- Lookup distributes over field-list concatenation. -/
theorem fsGet_fsAppend (k : String) :
    (a : JsFields) → ∀ b, fsGet (fsAppend a b) k =
      (match fsGet a k with | some v => some v | none => fsGet b k)
  | .nil, b => by simp [fsAppend, fsGet]
  | .cons k0 v0 r, b => by
    by_cases h0 : (k0 == k) = true
    · simp [fsAppend, fsGet, h0]
    · have h0f : (k0 == k) = false := by simpa using h0
      simp only [fsAppend, fsGet, h0f, Bool.false_eq_true, if_false]
      exact fsGet_fsAppend k r b

/-- Lookup in the overridden defaults: a default key takes the request
value when the request binds it. -/
theorem fsGet_overrideFields (k : String) :
    (d : JsFields) → ∀ r, fsGet (overrideFields d r) k =
      (match fsGet d k with
       | some v => some (match fsGet r k with | some w => w | none => v)
       | none => none)
  | .nil, r => by simp [overrideFields, fsGet]
  | .cons k0 v0 rest, r => by
    by_cases h0 : (k0 == k) = true
    · have hk : k0 = k := beq_iff_eq.mp h0
      subst hk
      simp [overrideFields, fsGet]
    · have h0f : (k0 == k) = false := by simpa using h0
      simp only [overrideFields, fsGet, h0f, Bool.false_eq_true, if_false]
      exact fsGet_overrideFields k rest r

/-- A key bound among the defaults never occurs in the appended
request-only fields. -/
theorem fsGet_extraFields_of_present (k : String) :
    (r : JsFields) → ∀ d, (fsGet d k).isSome → fsGet (extraFields r d) k = none
  | .nil, d, _ => by simp [extraFields, fsGet]
  | .cons k0 v0 rest, d, h => by
    cases hd : fsGet d k0 with
    | some w =>
      simp only [extraFields, hd]
      exact fsGet_extraFields_of_present k rest d h
    | none =>
      have h0f : (k0 == k) = false := by
        cases h0 : (k0 == k) with
        | false => rfl
        | true =>
          have : k0 = k := beq_iff_eq.mp h0
          subst this
          rw [hd] at h
          simp at h
      simp only [extraFields, hd, fsGet, h0f, Bool.false_eq_true, if_false]
      exact fsGet_extraFields_of_present k rest d h

/-- A key absent from the defaults reads through to the request-only
fields. -/
theorem fsGet_extraFields_of_absent (k : String) :
    (r : JsFields) → ∀ d, fsGet d k = none → fsGet (extraFields r d) k = fsGet r k
  | .nil, d, _ => by simp [extraFields]
  | .cons k0 v0 rest, d, h => by
    by_cases h0 : (k0 == k) = true
    · have hk : k0 = k := beq_iff_eq.mp h0
      subst hk
      simp only [extraFields, h, fsGet, h0]
      simp
    · have h0f : (k0 == k) = false := by simpa using h0
      cases hd : fsGet d k0 with
      | some w =>
        simp only [extraFields, hd, fsGet, h0f, Bool.false_eq_true, if_false]
        exact fsGet_extraFields_of_absent k rest d h
      | none =>
        simp only [extraFields, hd, fsGet, h0f, Bool.false_eq_true, if_false]
        exact fsGet_extraFields_of_absent k rest d h

/-- Spread lookup when the defaults bind the key. -/
theorem jsGet_jsSpread_present (d : JsFields) (req : Js) (k : String) (v : Js)
    (hd : fsGet d k = some v) :
    jsGet (jsSpread d req) k =
      some (match fsGet (objFields req) k with | some w => w | none => v) := by
  simp only [jsSpread, jsGet]
  rw [fsGet_fsAppend k _ (extraFields (objFields req) d)]
  rw [fsGet_overrideFields k d (objFields req)]
  rw [hd]

/-- Spread lookup when the defaults do not bind the key. -/
theorem jsGet_jsSpread_absent (d : JsFields) (req : Js) (k : String)
    (hd : fsGet d k = none) :
    jsGet (jsSpread d req) k = fsGet (objFields req) k := by
  simp only [jsSpread, jsGet]
  rw [fsGet_fsAppend k _ (extraFields (objFields req) d)]
  rw [fsGet_overrideFields k d (objFields req)]
  rw [hd, fsGet_extraFields_of_absent k (objFields req) d hd]

/-- An update action clearing the `<name>Request` custom field (the
`value: null` write of the originating request field). -/
def isClearOf (name : String) : UpdateAction → Bool
  | .setField _ _ n none => n == name ++ "Request"
  | _ => false

/-- `handleError` always clears the request field. -/
theorem handleError_any_clear (n : String) (e : JsError) (tid : Option String) :
    (handleError n e tid).any (isClearOf n) = true := by
  simp [handleError, isClearOf]

/-- `handleResponse` always clears the request field. -/
theorem handleResponse_any_clear (ts n : String) (r : Js) (tid : Option String) (b : Bool) :
    ((handleResponse ts n r tid b).2).any (isClearOf n) = true := by
  simp [handleResponse, isClearOf]

/-- The target-consistency property of a single update action: a
`setCustomField`-style action must target the event transaction exactly
when the handler received a truthy transaction id, and must carry that
transaction id. -/
def targetsOk (tid : Option String) : UpdateAction → Prop
  | .setField a t _ _ =>
      a = (if optTruthy tid then "setTransactionCustomField" else "setCustomField") ∧ t = tid
  | _ => True

theorem targetsOk_handleError (n : String) (e : JsError) (tid : Option String) :
    ∀ a ∈ handleError n e tid, targetsOk tid a := by
  intro a ha
  simp only [handleError, List.mem_cons, List.mem_singleton, List.not_mem_nil, or_false] at ha
  rcases ha with h | h <;> subst h <;> exact ⟨rfl, rfl⟩

theorem targetsOk_handleResponse (ts n : String) (r : Js) (tid : Option String) (b : Bool) :
    ∀ a ∈ (handleResponse ts n r tid b).2, targetsOk tid a := by
  intro a ha
  simp only [handleResponse, List.mem_append, List.mem_cons, List.not_mem_nil, or_false] at ha
  rcases ha with (h | h) | h
  · subst h; exact ⟨rfl, rfl⟩
  · cases b with
    | true => simp at h; subst h; trivial
    | false => simp at h
  · subst h; exact ⟨rfl, rfl⟩

theorem targetsOk_handleRequest (ts n : String) (r : Js) (tid : Option String) :
    ∀ a ∈ (handleRequest ts n r).2, targetsOk tid a := by
  intro a ha
  simp only [handleRequest, List.mem_singleton] at ha
  subst ha; trivial

theorem targetsOk_updatePaymentFields (r : Js) (tid : Option String) :
    ∀ a ∈ updatePaymentFields r, targetsOk tid a := by
  intro a ha
  simp only [updatePaymentFields, List.mem_cons, List.not_mem_nil, or_false] at ha
  rcases ha with h | h | h <;> subst h <;> trivial

/-- A concrete host environment for the closed instantiations below. -/
def envBase : Env where
  jsonParse := fun _ => none
  timestamp := "T"
  merchantAccount := none
  autocapture := false
  amountString := amountToString
  braintreeRefund := fun _ _ => .ok (.str "ok")
  braintreeSubmitForSettlement := fun _ _ => .ok (.str "ok")
  braintreeVoidTransaction := fun _ => .ok (.str "ok")
  transactionSale := fun _ => .ok (.str "ok")
  getClientToken := fun _ => .ok (.str "tok")
  findCustomer := fun _ => .ok (.str "F")
  createCustomer := fun _ => .ok (.str "C")
  createPaymentMethod := fun _ => .ok (.str "P")
  mapCustomerToBraintreeCreateRequest := fun _ _ => .obj (.cons "id" (.str "c1") .nil)
  mapBraintreeMoneyToCommercetoolsMoney := fun _ _ => 0
  mapBraintreeStatusToCommercetoolsTransactionState := fun _ => "Success"
  mapBraintreeStatusToCommercetoolsTransactionType := fun _ => "Charge"

/-- C8: `removeEmptyProperties`, applied by `handleRequest` (and
`handleResponse`) before serialising, is idempotent, and one application
leaves, at every depth, no null-valued property and no property whose
value is an object with zero own keys. -/
theorem c8_removeEmptyProperties_idem_clean (v : Js) :
    removeEmptyProperties (removeEmptyProperties v) = removeEmptyProperties v ∧
    noNullNoEmpty (removeEmptyProperties v) = true ∧
    ∀ ts name, handleRequest ts name v =
      (removeEmptyProperties v,
       [.addInterfaceInteraction BRAINTREE_PAYMENT_INTERACTION_TYPE_KEY (name ++ "Request")
          (stringifyData (removeEmptyProperties v)) ts]) := by
  refine ⟨removeEmptyProperties_idem v, noNullNoEmpty_removeEmptyProperties v, ?_⟩
  intro ts name
  cases v <;> rfl

/-- C10: `customerController` with action `Create` returns undefined
with no gateway call and no update actions; with any action other than
`Create` or `Update` it throws a `CustomError` with status code 500. -/
theorem c10_customerController_dispatch (env : Env) (action : String)
    (resource : CustomerReference) :
    (action = "Create" → customerController env action resource = (.ok none, [])) ∧
    (action ≠ "Create" → action ≠ "Update" →
      customerController env action resource =
        (.error (customErr 500
          ("Internal Server Error - Resource not recognized. Allowed values are "
            ++ "\x27Create\x27 or \x27Update\x27.")), [])) := by
  constructor
  · intro h; simp [customerController, h]
  · intro h1 h2; simp [customerController, h1, h2]

/-- Witness for C10 at the concrete actions `Create` and `Delete`. -/
theorem c10_customerController_dispatch_witness :
    customerController envBase "Create" { obj := none } = (.ok none, []) ∧
    customerController envBase "Delete" { obj := none } =
      (.error (customErr 500
        ("Internal Server Error - Resource not recognized. Allowed values are "
          ++ "\x27Create\x27 or \x27Update\x27.")), []) :=
  ⟨(c10_customerController_dispatch envBase "Create" { obj := none }).1 rfl,
   (c10_customerController_dispatch envBase "Delete" { obj := none }).2
     (by decide) (by decide)⟩

/-- C3: a payment operation handler whose triggering custom field is
absent (or falsy), or whose payment is undefined, returns the empty
action list and performs no gateway call. -/
theorem c3_absent_request_noop (op : PaymentOp) (env : Env)
    (pwt : PaymentWithOptionalTransaction)
    (h : ∀ p, pwt.payment = some p → optTruthy (ctGetO p.custom (opField op)) = false) :
    runOp op env pwt = (.ok [], []) := by
  cases op with
  | refundOp =>
    cases hp : pwt.payment with
    | none => simp [runOp, refund, hp]
    | some p =>
      have hg := h p hp
      rw [show opField .refundOp = "refundRequest" from rfl] at hg
      simp [runOp, refund, hp, hg]
  | submitForSettlementOp =>
    cases hp : pwt.payment with
    | none => simp [runOp, submitForSettlement, hp]
    | some p =>
      have hg := h p hp
      rw [show opField .submitForSettlementOp = "submitForSettlementRequest" from rfl] at hg
      simp [runOp, submitForSettlement, hp, hg]
  | voidOp =>
    cases hp : pwt.payment with
    | none => simp [runOp, voidTransaction, hp]
    | some p =>
      have hg := h p hp
      rw [show opField .voidOp = "voidRequest" from rfl] at hg
      simp [runOp, voidTransaction, hp, hg]
  | saleOp =>
    cases hp : pwt.payment with
    | none => simp [runOp, handleTransactionSaleRequest, hp]
    | some p =>
      have hg := h p hp
      rw [show opField .saleOp = "transactionSaleRequest" from rfl] at hg
      simp [runOp, handleTransactionSaleRequest, hp, hg]
  | tokenOp =>
    cases hp : pwt.payment with
    | none => simp [runOp, handleGetClientTokenRequest, hp]
    | some p =>
      have hg := h p hp
      rw [show opField .tokenOp = "getClientTokenRequest" from rfl] at hg
      cases hc : ctGetO p.custom "getClientTokenRequest" with
      | none => simp [runOp, handleGetClientTokenRequest, hp, hc]
      | some raw =>
        rw [hc] at hg
        have he : raw = "" := by simpa [optTruthy] using hg
        simp [runOp, handleGetClientTokenRequest, hp, hc, he]

/-- A payment carrying no request custom field. -/
def pNoReq : Payment where
  custom := some [("foo", "bar")]
  amountPlanned := none
  transactions := []
  interfaceId := none

/-- Witness for C3: a payment with no refundRequest custom field. -/
theorem c3_absent_request_noop_witness :
    (∀ p, (some pNoReq = some p) →
      optTruthy (ctGetO p.custom (opField .refundOp)) = false) ∧
    runOp .refundOp envBase { payment := some pNoReq, transaction := none } = (.ok [], []) :=
  ⟨fun p h => by cases h; rfl,
   c3_absent_request_noop .refundOp envBase _ (fun p h => by cases h; rfl)⟩

/-- C2: when request parsing or the gateway call throws inside refund,
submitForSettlement, voidTransaction or handleTransactionSaleRequest,
the handler returns exactly the two `handleError` actions: the
`<operation>Response` field set to the serialised
`\x7bsuccess: false, message\x7d` body and the `<operation>Request`
field set to null — in particular no addTransaction and no
payment-status action. -/
theorem c2_failure_two_actions (op : PaymentOp) (env : Env)
    (pwt : PaymentWithOptionalTransaction) (p : Payment) (raw : String) (e : JsError)
    (hop : op ≠ PaymentOp.tokenOp)
    (hp : pwt.payment = some p)
    (hf : ctGetO p.custom (opField op) = some raw)
    (hraw : raw ≠ "")
    (hfail : opParse op env pwt = .error e ∨
      ∃ r, opParse op env pwt = .ok r ∧
        opGateway op env (handleRequest env.timestamp (opName op) r).1 = .error e) :
    (runOp op env pwt).1 = .ok
      [ .setField (if optTruthy (opErrorTid op pwt) then "setTransactionCustomField"
            else "setCustomField") (opErrorTid op pwt) (opName op ++ "Response")
          (some (errorResponseValue (errMessage e))),
        .setField (if optTruthy (opErrorTid op pwt) then "setTransactionCustomField"
            else "setCustomField") (opErrorTid op pwt) (opName op ++ "Request") none ] := by
  cases op with
  | tokenOp => exact absurd rfl hop
  | refundOp =>
    rw [show opField .refundOp = "refundRequest" from rfl] at hf
    simp only [runOp, refund, hp, hf, optTruthy, bne_iff_ne, ne_eq, hraw,
      not_false_eq_true, if_false]
    rcases hfail with hpe | ⟨r, hpr, hgw⟩
    · rw [show opParse .refundOp env pwt = parseRequest env pwt "refundRequest" "Charge"
          from rfl] at hpe
      rw [hpe]
      simp [handleError, opErrorTid, opName, optTruthy, hraw]
    · rw [show opParse .refundOp env pwt = parseRequest env pwt "refundRequest" "Charge"
          from rfl] at hpr
      simp only [opGateway, handleRequest] at hgw
      rw [hpr]
      simp only [handleRequest]
      rw [hgw]
      simp [handleError, opErrorTid, opName, optTruthy, hraw]
  | submitForSettlementOp =>
    rw [show opField .submitForSettlementOp = "submitForSettlementRequest" from rfl] at hf
    simp only [runOp, submitForSettlement, hp, hf, optTruthy, bne_iff_ne, ne_eq, hraw,
      not_false_eq_true, if_false]
    rcases hfail with hpe | ⟨r, hpr, hgw⟩
    · rw [show opParse .submitForSettlementOp env pwt =
          parseRequest env pwt "submitForSettlementRequest" "Authorization" from rfl] at hpe
      rw [hpe]
      simp [handleError, opErrorTid, opName, optTruthy, hraw]
    · rw [show opParse .submitForSettlementOp env pwt =
          parseRequest env pwt "submitForSettlementRequest" "Authorization" from rfl] at hpr
      simp only [opGateway, handleRequest] at hgw
      rw [hpr]
      simp only [handleRequest]
      rw [hgw]
      simp [handleError, opErrorTid, opName, optTruthy, hraw]
  | voidOp =>
    rw [show opField .voidOp = "voidRequest" from rfl] at hf
    simp only [runOp, voidTransaction, hp, hf, optTruthy, bne_iff_ne, ne_eq, hraw,
      not_false_eq_true, if_false]
    rcases hfail with hpe | ⟨r, hpr, hgw⟩
    · rw [show opParse .voidOp env pwt =
          parseRequest env pwt "voidRequest" "Authorization" from rfl] at hpe
      rw [hpe]
      simp [handleError, opErrorTid, opName, optTruthy, hraw]
    · rw [show opParse .voidOp env pwt =
          parseRequest env pwt "voidRequest" "Authorization" from rfl] at hpr
      simp only [opGateway, handleRequest] at hgw
      rw [hpr]
      simp only [handleRequest]
      rw [hgw]
      simp [handleError, opErrorTid, opName, optTruthy, hraw]
  | saleOp =>
    rw [show opField .saleOp = "transactionSaleRequest" from rfl] at hf
    simp only [runOp, handleTransactionSaleRequest, hp, hf, optTruthy, bne_iff_ne, ne_eq,
      hraw, not_false_eq_true, if_false]
    rcases hfail with hpe | ⟨r, hpr, hgw⟩
    · rw [show opParse .saleOp env pwt = parseTransactionSaleRequest env p
          from by simp [opParse, hp]] at hpe
      rw [hpe]
      simp [handleError, opErrorTid, opName, optTruthy, hraw]
    · rw [show opParse .saleOp env pwt = parseTransactionSaleRequest env p
          from by simp [opParse, hp]] at hpr
      simp only [opGateway, handleRequest] at hgw
      rw [hpr]
      simp only [handleRequest]
      rw [hgw]
      simp [handleError, opErrorTid, opName, optTruthy, hraw]

/-- A host environment whose refund gateway call fails. -/
def envGwFail : Env :=
  { envBase with braintreeRefund := fun _ _ => .error (.err "Error" "boom" "st") }

/-- A payment carrying a refundRequest custom field. -/
def pRefund : Payment where
  custom := some [("refundRequest", "r1")]
  amountPlanned := none
  transactions := []
  interfaceId := none

/-- Witness for C2: a refund whose gateway call fails returns exactly
the two error actions. -/
theorem c2_failure_two_actions_witness :
    ctGetO pRefund.custom (opField .refundOp) = some "r1" ∧
    (runOp .refundOp envGwFail { payment := some pRefund, transaction := none }).1 = .ok
      [ .setField "setCustomField" none "refundResponse" (some (errorResponseValue "boom")),
        .setField "setCustomField" none "refundRequest" none ] :=
  ⟨rfl,
   c2_failure_two_actions .refundOp envGwFail
     { payment := some pRefund, transaction := none } pRefund "r1" (.err "Error" "boom" "st")
     (fun h => PaymentOp.noConfusion h) rfl rfl (by decide)
     (Or.inr ⟨.obj (.cons "transactionId" (.str "r1") .nil), rfl, rfl⟩)⟩

/-- C1 (amended): for refund, submitForSettlement, voidTransaction and
handleTransactionSaleRequest with the triggering field populated, the
returned action list always contains an action setting the originating
request field to null, on success and on failure; for
handleGetClientTokenRequest, this holds whenever the field value parses
as JSON (the parse runs outside the try block, so a non-JSON value makes
the handler throw without returning actions). -/
theorem c1_request_cleared_amended (op : PaymentOp) (env : Env)
    (pwt : PaymentWithOptionalTransaction) (p : Payment) (raw : String)
    (hp : pwt.payment = some p)
    (hf : ctGetO p.custom (opField op) = some raw)
    (hraw : raw ≠ "")
    (htok : op = PaymentOp.tokenOp → env.jsonParse raw ≠ none) :
    ∃ acts, (runOp op env pwt).1 = .ok acts ∧ acts.any (isClearOf (opName op)) = true := by
  cases op with
  | refundOp =>
    rw [show opField .refundOp = "refundRequest" from rfl] at hf
    have hif : ¬(optTruthy (some raw) = false) := by simp [optTruthy, hraw]
    rcases hpr : parseRequest env pwt "refundRequest" "Charge" with e | r
    · simp only [runOp, refund, hp, hf, hpr]
      rw [if_neg hif]
      exact ⟨_, rfl, handleError_any_clear _ _ _⟩
    · rcases hgw : env.braintreeRefund
          (jsGet (handleRequest env.timestamp "refund" r).1 "transactionId")
          (jsGet (handleRequest env.timestamp "refund" r).1 "amount") with e | response0
      · simp only [runOp, refund, hp, hf, hpr, hgw]
        rw [if_neg hif]
        exact ⟨_, rfl, handleError_any_clear _ _ _⟩
      · simp only [runOp, refund, hp, hf, hpr, hgw]
        rw [if_neg hif]
        refine ⟨_, rfl, ?_⟩
        simp [List.any_append, handlePaymentResponse, handleResponse_any_clear, opName]
  | submitForSettlementOp =>
    rw [show opField .submitForSettlementOp = "submitForSettlementRequest" from rfl] at hf
    have hif : ¬(optTruthy (some raw) = false) := by simp [optTruthy, hraw]
    rcases hpr : parseRequest env pwt "submitForSettlementRequest" "Authorization" with e | r
    · simp only [runOp, submitForSettlement, hp, hf, hpr]
      rw [if_neg hif]
      exact ⟨_, rfl, handleError_any_clear _ _ _⟩
    · rcases hgw : env.braintreeSubmitForSettlement
          (jsGet (handleRequest env.timestamp "submitForSettlement" r).1 "transactionId")
          (jsGet (handleRequest env.timestamp "submitForSettlement" r).1 "amount")
          with e | response0
      · simp only [runOp, submitForSettlement, hp, hf, hpr, hgw]
        rw [if_neg hif]
        exact ⟨_, rfl, handleError_any_clear _ _ _⟩
      · simp only [runOp, submitForSettlement, hp, hf, hpr, hgw]
        rw [if_neg hif]
        refine ⟨_, rfl, ?_⟩
        simp [List.any_append, handlePaymentResponse, handleResponse_any_clear, opName]
  | voidOp =>
    rw [show opField .voidOp = "voidRequest" from rfl] at hf
    have hif : ¬(optTruthy (some raw) = false) := by simp [optTruthy, hraw]
    rcases hpr : parseRequest env pwt "voidRequest" "Authorization" with e | r
    · simp only [runOp, voidTransaction, hp, hf, hpr]
      rw [if_neg hif]
      exact ⟨_, rfl, handleError_any_clear _ _ _⟩
    · rcases hgw : env.braintreeVoidTransaction
          (jsGet (handleRequest env.timestamp "void" r).1 "transactionId") with e | response0
      · simp only [runOp, voidTransaction, hp, hf, hpr, hgw]
        rw [if_neg hif]
        exact ⟨_, rfl, handleError_any_clear _ _ _⟩
      · simp only [runOp, voidTransaction, hp, hf, hpr, hgw]
        rw [if_neg hif]
        refine ⟨_, rfl, ?_⟩
        simp [List.any_append, handlePaymentResponse, handleResponse_any_clear, opName]
  | saleOp =>
    rw [show opField .saleOp = "transactionSaleRequest" from rfl] at hf
    have hif : ¬(optTruthy (some raw) = false) := by simp [optTruthy, hraw]
    rcases hpr : parseTransactionSaleRequest env p with e | r
    · simp only [runOp, handleTransactionSaleRequest, hp, hf, hpr]
      rw [if_neg hif]
      exact ⟨_, rfl, handleError_any_clear _ _ _⟩
    · rcases hgw : env.transactionSale (handleRequest env.timestamp "transactionSale" r).1
          with e | response0
      · simp only [runOp, handleTransactionSaleRequest, hp, hf, hpr, hgw]
        rw [if_neg hif]
        exact ⟨_, rfl, handleError_any_clear _ _ _⟩
      · simp only [runOp, handleTransactionSaleRequest, hp, hf, hpr, hgw]
        rw [if_neg hif]
        refine ⟨_, rfl, ?_⟩
        simp [List.any_append, handlePaymentResponse, handleResponse_any_clear, opName]
  | tokenOp =>
    rw [show opField .tokenOp = "getClientTokenRequest" from rfl] at hf
    cases hj : env.jsonParse raw with
    | none => exact absurd hj (htok rfl)
    | some req0 =>
      rcases hgw : env.getClientToken
          (handleRequest env.timestamp "getClientToken"
            (jsSpread (merchantField env .nil) req0)).1 with e | response
      · simp only [runOp, handleGetClientTokenRequest, hp, hf, hj, hgw]
        rw [if_neg hraw]
        exact ⟨_, rfl, handleError_any_clear _ _ _⟩
      · simp only [runOp, handleGetClientTokenRequest, hp, hf, hj, hgw]
        rw [if_neg hraw]
        refine ⟨_, rfl, ?_⟩
        simp [List.any_append, handlePaymentResponse, handleResponse_any_clear, opName]

/-- A host environment whose JSON.parse accepts everything as an empty
object. -/
def envParseObj : Env := { envBase with jsonParse := fun _ => some (.obj .nil) }

/-- Witness for C1: a successful refund with a populated refundRequest
field clears the field. -/
theorem c1_request_cleared_amended_witness :
    ctGetO pRefund.custom (opField .refundOp) = some "r1" ∧
    ∃ acts, (runOp .refundOp envBase { payment := some pRefund, transaction := none }).1
        = .ok acts ∧ acts.any (isClearOf (opName .refundOp)) = true :=
  ⟨rfl,
   c1_request_cleared_amended .refundOp envBase
     { payment := some pRefund, transaction := none } pRefund "r1" rfl rfl (by decide)
     (fun h => PaymentOp.noConfusion h)⟩

/-- A payment carrying a getClientTokenRequest custom field whose value
is not valid JSON under `envBase`. -/
def pTok : Payment where
  custom := some [("getClientTokenRequest", "bad")]
  amountPlanned := none
  transactions := []
  interfaceId := none

/-- Counterexample to C1 as stated: with a populated
getClientTokenRequest field whose value is not valid JSON, the handler
throws (the parse runs outside the try block) and returns no update
action list at all, so no clearing action is returned. -/
theorem c1_counterexample :
    ctGetO pTok.custom (opField .tokenOp) = some "bad" ∧
    envBase.jsonParse "bad" = none ∧
    ¬ ∃ acts, (runOp .tokenOp envBase { payment := some pTok, transaction := none }).1
        = .ok acts ∧ acts.any (isClearOf (opName .tokenOp)) = true := by
  refine ⟨rfl, rfl, ?_⟩
  rintro ⟨acts, hacts, -⟩
  rw [show (runOp .tokenOp envBase { payment := some pTok, transaction := none }).1
      = .error jsonParseError from rfl] at hacts
  cases hacts

/-- When the parsed request is an object without a (non-null)
transactionId, `parseRequest` propagates a `findSuitableTransactionId`
failure. -/
theorem parseRequest_noTid_error (env : Env) (pwt : PaymentWithOptionalTransaction)
    (requestField ttype : String) (p : Payment) (raw : String) (fs : JsFields) (e : JsError)
    (hp : pwt.payment = some p) (hf : ctGetO p.custom requestField = some raw)
    (hraw : raw ≠ "") (hparse : env.jsonParse raw = some (.obj fs))
    (hnn : jsNN (fsGet fs "transactionId") = none)
    (hfind : findSuitableTransactionId pwt ttype = .error e) :
    parseRequest env pwt requestField ttype = .error e := by
  simp only [parseRequest, hp, Option.bind_eq_bind, Option.some_bind, hf, hparse, jsGet, hnn,
    hfind]
  rw [if_neg hraw]

/-- When the parsed request is an object without a (non-null)
transactionId and a suitable transaction id is found, `parseRequest`
backfills it. -/
theorem parseRequest_noTid_some (env : Env) (pwt : PaymentWithOptionalTransaction)
    (requestField ttype : String) (p : Payment) (raw : String) (fs : JsFields) (s : String)
    (hp : pwt.payment = some p) (hf : ctGetO p.custom requestField = some raw)
    (hraw : raw ≠ "") (hparse : env.jsonParse raw = some (.obj fs))
    (hnn : jsNN (fsGet fs "transactionId") = none)
    (hfind : findSuitableTransactionId pwt ttype = .ok (some s)) :
    parseRequest env pwt requestField ttype =
      .ok (.obj (setFields fs "transactionId" (.str s))) := by
  simp only [parseRequest, hp, Option.bind_eq_bind, Option.some_bind, hf, hparse, jsGet, hnn,
    hfind, jsSetField]
  rw [if_neg hraw]

/-- When the parsed request is an object without a (non-null)
transactionId and the event transaction has no interactionId, the
request is left unchanged (the source assigns `undefined`). -/
theorem parseRequest_noTid_none (env : Env) (pwt : PaymentWithOptionalTransaction)
    (requestField ttype : String) (p : Payment) (raw : String) (fs : JsFields)
    (hp : pwt.payment = some p) (hf : ctGetO p.custom requestField = some raw)
    (hraw : raw ≠ "") (hparse : env.jsonParse raw = some (.obj fs))
    (hnn : jsNN (fsGet fs "transactionId") = none)
    (hfind : findSuitableTransactionId pwt ttype = .ok none) :
    parseRequest env pwt requestField ttype = .ok (.obj fs) := by
  simp only [parseRequest, hp, Option.bind_eq_bind, Option.some_bind, hf, hparse, jsGet, hnn,
    hfind]
  rw [if_neg hraw]

/-- The transaction id argument of the gateway call after the request
has been cleaned: a backfilled string id survives. -/
theorem gwTid_of_backfilled (ts n : String) (fs : JsFields) (s : String) :
    jsGet (handleRequest ts n (.obj (setFields fs "transactionId" (.str s)))).1
      "transactionId" = some (.str s) := by
  show fsGet (removeEmptyPropertiesFields (setFields fs "transactionId" (.str s)))
    "transactionId" = some (.str s)
  exact fsGet_removeEmpty_str _ _ _ (fsGet_setFields_self _ _ _)

/-- The transaction id argument of the gateway call after the request
has been cleaned: a nullish id is erased by `removeEmptyProperties`. -/
theorem gwTid_of_nullish (ts n : String) (fs : JsFields)
    (hnd : fsNoDupKeys fs = true) (hnn : jsNN (fsGet fs "transactionId") = none) :
    jsGet (handleRequest ts n (.obj fs)).1 "transactionId" = none := by
  show fsGet (removeEmptyPropertiesFields fs) "transactionId" = none
  exact fsGet_removeEmpty_nullish _ _ hnd hnn

/-- The transaction id argument recorded in a gateway call, for the
three transaction-modifying operations. -/
def gwCallTid : GwCall → Option (Option Js)
  | .refundCall t _ => some t
  | .submitForSettlementCall t _ => some t
  | .voidCall t => some t
  | _ => none

/-- With a populated refundRequest and a parsed request, the refund
handler performs exactly one gateway call with the cleaned request
fields. -/
theorem refund_calls (env : Env) (pwt : PaymentWithOptionalTransaction) (p : Payment) (r : Js)
    (hp : pwt.payment = some p)
    (hguard : optTruthy (ctGetO p.custom "refundRequest") = true)
    (hpr : parseRequest env pwt "refundRequest" "Charge" = .ok r) :
    (refund env pwt).2 =
      [.refundCall (jsGet (handleRequest env.timestamp "refund" r).1 "transactionId")
        (jsGet (handleRequest env.timestamp "refund" r).1 "amount")] := by
  simp only [refund, hp, hguard, hpr]
  rw [if_neg (by simp : ¬(true = false))]
  cases hgw : env.braintreeRefund
      (jsGet (handleRequest env.timestamp "refund" r).1 "transactionId")
      (jsGet (handleRequest env.timestamp "refund" r).1 "amount") <;> simp [hgw]

/-- With a populated refundRequest and a failing parse, the refund
handler returns the two error actions and performs no gateway call. -/
theorem refund_parse_error (env : Env) (pwt : PaymentWithOptionalTransaction) (p : Payment)
    (e : JsError)
    (hp : pwt.payment = some p)
    (hguard : optTruthy (ctGetO p.custom "refundRequest") = true)
    (hpr : parseRequest env pwt "refundRequest" "Charge" = .error e) :
    refund env pwt =
      (.ok (handleError "refund" e (pwt.transaction.map CtTransaction.id)), []) := by
  simp only [refund, hp, hguard, hpr]
  rw [if_neg (by simp : ¬(true = false))]

/-- submitForSettlement analogue of `refund_calls`. -/
theorem submitForSettlement_calls (env : Env) (pwt : PaymentWithOptionalTransaction)
    (p : Payment) (r : Js)
    (hp : pwt.payment = some p)
    (hguard : optTruthy (ctGetO p.custom "submitForSettlementRequest") = true)
    (hpr : parseRequest env pwt "submitForSettlementRequest" "Authorization" = .ok r) :
    (submitForSettlement env pwt).2 =
      [.submitForSettlementCall
        (jsGet (handleRequest env.timestamp "submitForSettlement" r).1 "transactionId")
        (jsGet (handleRequest env.timestamp "submitForSettlement" r).1 "amount")] := by
  simp only [submitForSettlement, hp, hguard, hpr]
  rw [if_neg (by simp : ¬(true = false))]
  cases hgw : env.braintreeSubmitForSettlement
      (jsGet (handleRequest env.timestamp "submitForSettlement" r).1 "transactionId")
      (jsGet (handleRequest env.timestamp "submitForSettlement" r).1 "amount") <;> simp [hgw]

/-- submitForSettlement analogue of `refund_parse_error`. -/
theorem submitForSettlement_parse_error (env : Env) (pwt : PaymentWithOptionalTransaction)
    (p : Payment) (e : JsError)
    (hp : pwt.payment = some p)
    (hguard : optTruthy (ctGetO p.custom "submitForSettlementRequest") = true)
    (hpr : parseRequest env pwt "submitForSettlementRequest" "Authorization" = .error e) :
    submitForSettlement env pwt =
      (.ok (handleError "submitForSettlement" e (pwt.transaction.map CtTransaction.id)), []) := by
  simp only [submitForSettlement, hp, hguard, hpr]
  rw [if_neg (by simp : ¬(true = false))]

/-- voidTransaction analogue of `refund_calls`. -/
theorem voidTransaction_calls (env : Env) (pwt : PaymentWithOptionalTransaction)
    (p : Payment) (r : Js)
    (hp : pwt.payment = some p)
    (hguard : optTruthy (ctGetO p.custom "voidRequest") = true)
    (hpr : parseRequest env pwt "voidRequest" "Authorization" = .ok r) :
    (voidTransaction env pwt).2 =
      [.voidCall (jsGet (handleRequest env.timestamp "void" r).1 "transactionId")] := by
  simp only [voidTransaction, hp, hguard, hpr]
  rw [if_neg (by simp : ¬(true = false))]
  cases hgw : env.braintreeVoidTransaction
      (jsGet (handleRequest env.timestamp "void" r).1 "transactionId") <;> simp [hgw]

/-- voidTransaction analogue of `refund_parse_error`. -/
theorem voidTransaction_parse_error (env : Env) (pwt : PaymentWithOptionalTransaction)
    (p : Payment) (e : JsError)
    (hp : pwt.payment = some p)
    (hguard : optTruthy (ctGetO p.custom "voidRequest") = true)
    (hpr : parseRequest env pwt "voidRequest" "Authorization" = .error e) :
    voidTransaction env pwt =
      (.ok (handleError "void" e (pwt.transaction.map CtTransaction.id)), []) := by
  simp only [voidTransaction, hp, hguard, hpr]
  rw [if_neg (by simp : ¬(true = false))]

/-- C5: for refund, submitForSettlement and voidTransaction, when the
parsed request object carries no (non-null) transactionId: the
interactionId of the event transaction is used when present; otherwise
the interactionId of the last transaction on the payment whose type
matches the operation (Charge for refund, Authorization for
submitForSettlement and void) is used for the gateway call; and when the
payment has no transaction of that type the operation fails with the
error message `The payment has no suitable transaction`. -/
theorem c5_transaction_id_fallback (op : PaymentOp) (env : Env)
    (pwt : PaymentWithOptionalTransaction) (p : Payment) (raw : String) (fs : JsFields)
    (hop : op = PaymentOp.refundOp ∨ op = PaymentOp.submitForSettlementOp ∨
      op = PaymentOp.voidOp)
    (hp : pwt.payment = some p)
    (hf : ctGetO p.custom (opField op) = some raw)
    (hraw : raw ≠ "")
    (hparse : env.jsonParse raw = some (.obj fs))
    (hnd : fsNoDupKeys fs = true)
    (hnn : jsNN (fsGet fs "transactionId") = none) :
    (∀ t, pwt.transaction = some t →
      ∃ c, (runOp op env pwt).2 = [c] ∧ gwCallTid c = some (t.interactionId.map Js.str)) ∧
    (pwt.transaction = none → ∀ t,
      (p.transactions.filter (fun tr => tr.ttype == opTransactionType op)).getLast? = some t →
      ∃ c, (runOp op env pwt).2 = [c] ∧ gwCallTid c = some (t.interactionId.map Js.str)) ∧
    (pwt.transaction = none →
      (p.transactions.filter (fun tr => tr.ttype == opTransactionType op)).getLast? = none →
      runOp op env pwt =
        (.ok (handleError (opName op)
          (customErr 500 "The payment has no suitable transaction") none), [])) := by
  cases op with
  | saleOp => rcases hop with h | h | h <;> cases h
  | tokenOp => rcases hop with h | h | h <;> cases h
  | refundOp =>
    have hguard : optTruthy (ctGetO p.custom "refundRequest") = true := by
      rw [show ("refundRequest" : String) = opField .refundOp from rfl, hf]
      simp [optTruthy, hraw]
    refine ⟨?_, ?_, ?_⟩
    · intro t ht
      cases hi : t.interactionId with
      | some s =>
        have hfind : findSuitableTransactionId pwt "Charge" = .ok (some s) := by
          simp [findSuitableTransactionId, ht, hi]
        have hpr := parseRequest_noTid_some env pwt "refundRequest" "Charge" p raw fs s
          hp hf hraw hparse hnn hfind
        rw [show runOp .refundOp env pwt = refund env pwt from rfl,
          refund_calls env pwt p _ hp hguard hpr]
        exact ⟨_, rfl, by simp [gwCallTid, gwTid_of_backfilled, hi]⟩
      | none =>
        have hfind : findSuitableTransactionId pwt "Charge" = .ok none := by
          simp [findSuitableTransactionId, ht, hi]
        have hpr := parseRequest_noTid_none env pwt "refundRequest" "Charge" p raw fs
          hp hf hraw hparse hnn hfind
        rw [show runOp .refundOp env pwt = refund env pwt from rfl,
          refund_calls env pwt p _ hp hguard hpr]
        exact ⟨_, rfl, by
          simp [gwCallTid, gwTid_of_nullish env.timestamp "refund" fs hnd hnn, hi]⟩
    · intro ht t hlast
      rw [show opTransactionType .refundOp = "Charge" from rfl] at hlast
      cases hi : t.interactionId with
      | some s =>
        have hfind : findSuitableTransactionId pwt "Charge" = .ok (some s) := by
          simp [findSuitableTransactionId, ht, hp, hlast, hi]
        have hpr := parseRequest_noTid_some env pwt "refundRequest" "Charge" p raw fs s
          hp hf hraw hparse hnn hfind
        rw [show runOp .refundOp env pwt = refund env pwt from rfl,
          refund_calls env pwt p _ hp hguard hpr]
        exact ⟨_, rfl, by simp [gwCallTid, gwTid_of_backfilled, hi]⟩
      | none =>
        have hfind : findSuitableTransactionId pwt "Charge" = .ok none := by
          simp [findSuitableTransactionId, ht, hp, hlast, hi]
        have hpr := parseRequest_noTid_none env pwt "refundRequest" "Charge" p raw fs
          hp hf hraw hparse hnn hfind
        rw [show runOp .refundOp env pwt = refund env pwt from rfl,
          refund_calls env pwt p _ hp hguard hpr]
        exact ⟨_, rfl, by
          simp [gwCallTid, gwTid_of_nullish env.timestamp "refund" fs hnd hnn, hi]⟩
    · intro ht hlast
      rw [show opTransactionType .refundOp = "Charge" from rfl] at hlast
      have hfind : findSuitableTransactionId pwt "Charge" =
          .error (customErr 500 "The payment has no suitable transaction") := by
        simp [findSuitableTransactionId, ht, hp, hlast]
      have hpr := parseRequest_noTid_error env pwt "refundRequest" "Charge" p raw fs _
        hp hf hraw hparse hnn hfind
      rw [show runOp .refundOp env pwt = refund env pwt from rfl,
        refund_parse_error env pwt p _ hp hguard hpr]
      simp [ht, opName]
  | submitForSettlementOp =>
    have hguard : optTruthy (ctGetO p.custom "submitForSettlementRequest") = true := by
      rw [show ("submitForSettlementRequest" : String) = opField .submitForSettlementOp from rfl, hf]
      simp [optTruthy, hraw]
    refine ⟨?_, ?_, ?_⟩
    · intro t ht
      cases hi : t.interactionId with
      | some s =>
        have hfind : findSuitableTransactionId pwt "Authorization" = .ok (some s) := by
          simp [findSuitableTransactionId, ht, hi]
        have hpr := parseRequest_noTid_some env pwt "submitForSettlementRequest" "Authorization" p raw fs s
          hp hf hraw hparse hnn hfind
        rw [show runOp .submitForSettlementOp env pwt = submitForSettlement env pwt from rfl,
          submitForSettlement_calls env pwt p _ hp hguard hpr]
        exact ⟨_, rfl, by simp [gwCallTid, gwTid_of_backfilled, hi]⟩
      | none =>
        have hfind : findSuitableTransactionId pwt "Authorization" = .ok none := by
          simp [findSuitableTransactionId, ht, hi]
        have hpr := parseRequest_noTid_none env pwt "submitForSettlementRequest" "Authorization" p raw fs
          hp hf hraw hparse hnn hfind
        rw [show runOp .submitForSettlementOp env pwt = submitForSettlement env pwt from rfl,
          submitForSettlement_calls env pwt p _ hp hguard hpr]
        exact ⟨_, rfl, by
          simp [gwCallTid, gwTid_of_nullish env.timestamp "submitForSettlement" fs hnd hnn, hi]⟩
    · intro ht t hlast
      rw [show opTransactionType .submitForSettlementOp = "Authorization" from rfl] at hlast
      cases hi : t.interactionId with
      | some s =>
        have hfind : findSuitableTransactionId pwt "Authorization" = .ok (some s) := by
          simp [findSuitableTransactionId, ht, hp, hlast, hi]
        have hpr := parseRequest_noTid_some env pwt "submitForSettlementRequest" "Authorization" p raw fs s
          hp hf hraw hparse hnn hfind
        rw [show runOp .submitForSettlementOp env pwt = submitForSettlement env pwt from rfl,
          submitForSettlement_calls env pwt p _ hp hguard hpr]
        exact ⟨_, rfl, by simp [gwCallTid, gwTid_of_backfilled, hi]⟩
      | none =>
        have hfind : findSuitableTransactionId pwt "Authorization" = .ok none := by
          simp [findSuitableTransactionId, ht, hp, hlast, hi]
        have hpr := parseRequest_noTid_none env pwt "submitForSettlementRequest" "Authorization" p raw fs
          hp hf hraw hparse hnn hfind
        rw [show runOp .submitForSettlementOp env pwt = submitForSettlement env pwt from rfl,
          submitForSettlement_calls env pwt p _ hp hguard hpr]
        exact ⟨_, rfl, by
          simp [gwCallTid, gwTid_of_nullish env.timestamp "submitForSettlement" fs hnd hnn, hi]⟩
    · intro ht hlast
      rw [show opTransactionType .submitForSettlementOp = "Authorization" from rfl] at hlast
      have hfind : findSuitableTransactionId pwt "Authorization" =
          .error (customErr 500 "The payment has no suitable transaction") := by
        simp [findSuitableTransactionId, ht, hp, hlast]
      have hpr := parseRequest_noTid_error env pwt "submitForSettlementRequest" "Authorization" p raw fs _
        hp hf hraw hparse hnn hfind
      rw [show runOp .submitForSettlementOp env pwt = submitForSettlement env pwt from rfl,
        submitForSettlement_parse_error env pwt p _ hp hguard hpr]
      simp [ht, opName]
  | voidOp =>
    have hguard : optTruthy (ctGetO p.custom "voidRequest") = true := by
      rw [show ("voidRequest" : String) = opField .voidOp from rfl, hf]
      simp [optTruthy, hraw]
    refine ⟨?_, ?_, ?_⟩
    · intro t ht
      cases hi : t.interactionId with
      | some s =>
        have hfind : findSuitableTransactionId pwt "Authorization" = .ok (some s) := by
          simp [findSuitableTransactionId, ht, hi]
        have hpr := parseRequest_noTid_some env pwt "voidRequest" "Authorization" p raw fs s
          hp hf hraw hparse hnn hfind
        rw [show runOp .voidOp env pwt = voidTransaction env pwt from rfl,
          voidTransaction_calls env pwt p _ hp hguard hpr]
        exact ⟨_, rfl, by simp [gwCallTid, gwTid_of_backfilled, hi]⟩
      | none =>
        have hfind : findSuitableTransactionId pwt "Authorization" = .ok none := by
          simp [findSuitableTransactionId, ht, hi]
        have hpr := parseRequest_noTid_none env pwt "voidRequest" "Authorization" p raw fs
          hp hf hraw hparse hnn hfind
        rw [show runOp .voidOp env pwt = voidTransaction env pwt from rfl,
          voidTransaction_calls env pwt p _ hp hguard hpr]
        exact ⟨_, rfl, by
          simp [gwCallTid, gwTid_of_nullish env.timestamp "void" fs hnd hnn, hi]⟩
    · intro ht t hlast
      rw [show opTransactionType .voidOp = "Authorization" from rfl] at hlast
      cases hi : t.interactionId with
      | some s =>
        have hfind : findSuitableTransactionId pwt "Authorization" = .ok (some s) := by
          simp [findSuitableTransactionId, ht, hp, hlast, hi]
        have hpr := parseRequest_noTid_some env pwt "voidRequest" "Authorization" p raw fs s
          hp hf hraw hparse hnn hfind
        rw [show runOp .voidOp env pwt = voidTransaction env pwt from rfl,
          voidTransaction_calls env pwt p _ hp hguard hpr]
        exact ⟨_, rfl, by simp [gwCallTid, gwTid_of_backfilled, hi]⟩
      | none =>
        have hfind : findSuitableTransactionId pwt "Authorization" = .ok none := by
          simp [findSuitableTransactionId, ht, hp, hlast, hi]
        have hpr := parseRequest_noTid_none env pwt "voidRequest" "Authorization" p raw fs
          hp hf hraw hparse hnn hfind
        rw [show runOp .voidOp env pwt = voidTransaction env pwt from rfl,
          voidTransaction_calls env pwt p _ hp hguard hpr]
        exact ⟨_, rfl, by
          simp [gwCallTid, gwTid_of_nullish env.timestamp "void" fs hnd hnn, hi]⟩
    · intro ht hlast
      rw [show opTransactionType .voidOp = "Authorization" from rfl] at hlast
      have hfind : findSuitableTransactionId pwt "Authorization" =
          .error (customErr 500 "The payment has no suitable transaction") := by
        simp [findSuitableTransactionId, ht, hp, hlast]
      have hpr := parseRequest_noTid_error env pwt "voidRequest" "Authorization" p raw fs _
        hp hf hraw hparse hnn hfind
      rw [show runOp .voidOp env pwt = voidTransaction env pwt from rfl,
        voidTransaction_parse_error env pwt p _ hp hguard hpr]
      simp [ht, opName]


/-- A host environment parsing every request field as an object with no
transactionId. -/
def envParseEmptyObj : Env := { envBase with jsonParse := fun _ => some (.obj .nil) }

/-- A commercetools Charge transaction with interactionId `bt-42`. -/
def tCharge : CtTransaction :=
  { id := "t1", ttype := "Charge", interactionId := some "bt-42", custom := none }

/-- A payment whose only Charge transaction is `tCharge`, with a
populated refundRequest. -/
def pCharge : Payment where
  custom := some [("refundRequest", "r1")]
  amountPlanned := none
  transactions := [tCharge]
  interfaceId := none

/-- Witness for C5: with no event transaction, the refund gateway is
called with the interactionId of the last Charge transaction. -/
theorem c5_transaction_id_fallback_witness :
    ctGetO pCharge.custom (opField .refundOp) = some "r1" ∧
    envParseEmptyObj.jsonParse "r1" = some (.obj .nil) ∧
    ((some pCharge : Option Payment) = some pCharge → ∀ t,
      (pCharge.transactions.filter
        (fun tr => tr.ttype == opTransactionType .refundOp)).getLast? = some t →
      ∃ c, (runOp .refundOp envParseEmptyObj
          { payment := some pCharge, transaction := none }).2 = [c] ∧
        gwCallTid c = some (t.interactionId.map Js.str)) :=
  ⟨rfl, rfl,
   fun _ => (c5_transaction_id_fallback .refundOp envParseEmptyObj
     { payment := some pCharge, transaction := none } pCharge "r1" .nil
     (Or.inl rfl) rfl rfl (by decide) rfl rfl rfl).2.1 rfl⟩

/-- C9 (amended): for refund, submitForSettlement and voidTransaction,
every `setCustomField`-style action in a returned list uses the action
`setTransactionCustomField` exactly when the triggering event includes a
transaction whose id is truthy (non-empty), and `setCustomField`
otherwise, always carrying the event transaction id; success and error
paths agree on the target. -/
theorem c9_target_consistency_amended (op : PaymentOp) (env : Env)
    (pwt : PaymentWithOptionalTransaction) (acts : List UpdateAction)
    (hop : op = PaymentOp.refundOp ∨ op = PaymentOp.submitForSettlementOp ∨
      op = PaymentOp.voidOp)
    (hok : (runOp op env pwt).1 = .ok acts) :
    ∀ a ∈ acts, targetsOk (pwt.transaction.map CtTransaction.id) a := by
  cases op with
  | saleOp => rcases hop with h | h | h <;> cases h
  | tokenOp => rcases hop with h | h | h <;> cases h
  | refundOp =>
    cases hp : pwt.payment with
    | none =>
      rw [show runOp .refundOp env pwt = refund env pwt from rfl] at hok
      simp only [refund, hp, Except.ok.injEq] at hok
      subst hok
      intro a ha
      cases ha
    | some p =>
      cases hguard : optTruthy (ctGetO p.custom "refundRequest") with
      | false =>
        rw [show runOp .refundOp env pwt = refund env pwt from rfl] at hok
        simp only [refund, hp, hguard, ite_true, Except.ok.injEq] at hok
        subst hok
        intro a ha
        cases ha
      | true =>
        rw [show runOp .refundOp env pwt = refund env pwt from rfl] at hok
        rcases hpr : parseRequest env pwt "refundRequest" "Charge" with e | r
        · rw [refund_parse_error env pwt p e hp hguard hpr] at hok
          simp only [Except.ok.injEq] at hok
          subst hok
          exact targetsOk_handleError _ _ _
        · simp only [refund, hp, hguard, hpr] at hok
          rw [if_neg (by simp : ¬(true = false))] at hok
          rcases hgw : env.braintreeRefund
              (jsGet (handleRequest env.timestamp "refund" r).1 "transactionId")
              (jsGet (handleRequest env.timestamp "refund" r).1 "amount") with e | response0
          · rw [hgw] at hok
            simp only [Except.ok.injEq] at hok
            subst hok
            exact targetsOk_handleError _ _ _
          · rw [hgw] at hok
            simp only [Except.ok.injEq] at hok
            subst hok
            intro a ha
            rcases List.mem_append.mp ha with h123 | h4
            · rcases List.mem_append.mp h123 with h12 | h3
              · rcases List.mem_append.mp h12 with h1 | h2
                · exact targetsOk_handleRequest _ _ _ _ a h1
                · exact targetsOk_handleResponse env.timestamp "refund" response0
                    (pwt.transaction.map CtTransaction.id) true a h2
              · simp only [List.mem_singleton] at h3
                subst h3
                exact trivial
            · exact targetsOk_updatePaymentFields _ _ a h4
  | submitForSettlementOp =>
    cases hp : pwt.payment with
    | none =>
      rw [show runOp .submitForSettlementOp env pwt = submitForSettlement env pwt from rfl] at hok
      simp only [submitForSettlement, hp, Except.ok.injEq] at hok
      subst hok
      intro a ha
      cases ha
    | some p =>
      cases hguard : optTruthy (ctGetO p.custom "submitForSettlementRequest") with
      | false =>
        rw [show runOp .submitForSettlementOp env pwt = submitForSettlement env pwt from rfl] at hok
        simp only [submitForSettlement, hp, hguard, ite_true, Except.ok.injEq] at hok
        subst hok
        intro a ha
        cases ha
      | true =>
        rw [show runOp .submitForSettlementOp env pwt = submitForSettlement env pwt from rfl] at hok
        rcases hpr : parseRequest env pwt "submitForSettlementRequest" "Authorization" with e | r
        · rw [submitForSettlement_parse_error env pwt p e hp hguard hpr] at hok
          simp only [Except.ok.injEq] at hok
          subst hok
          exact targetsOk_handleError _ _ _
        · simp only [submitForSettlement, hp, hguard, hpr] at hok
          rw [if_neg (by simp : ¬(true = false))] at hok
          rcases hgw : env.braintreeSubmitForSettlement
              (jsGet (handleRequest env.timestamp "submitForSettlement" r).1 "transactionId")
              (jsGet (handleRequest env.timestamp "submitForSettlement" r).1 "amount") with e | response0
          · rw [hgw] at hok
            simp only [Except.ok.injEq] at hok
            subst hok
            exact targetsOk_handleError _ _ _
          · rw [hgw] at hok
            simp only [Except.ok.injEq] at hok
            subst hok
            intro a ha
            rcases List.mem_append.mp ha with h123 | h4
            · rcases List.mem_append.mp h123 with h12 | h3
              · rcases List.mem_append.mp h12 with h1 | h2
                · exact targetsOk_handleRequest _ _ _ _ a h1
                · exact targetsOk_handleResponse env.timestamp "submitForSettlement" response0
                    (pwt.transaction.map CtTransaction.id) true a h2
              · simp only [List.mem_singleton] at h3
                subst h3
                exact trivial
            · exact targetsOk_updatePaymentFields _ _ a h4
  | voidOp =>
    cases hp : pwt.payment with
    | none =>
      rw [show runOp .voidOp env pwt = voidTransaction env pwt from rfl] at hok
      simp only [voidTransaction, hp, Except.ok.injEq] at hok
      subst hok
      intro a ha
      cases ha
    | some p =>
      cases hguard : optTruthy (ctGetO p.custom "voidRequest") with
      | false =>
        rw [show runOp .voidOp env pwt = voidTransaction env pwt from rfl] at hok
        simp only [voidTransaction, hp, hguard, ite_true, Except.ok.injEq] at hok
        subst hok
        intro a ha
        cases ha
      | true =>
        rw [show runOp .voidOp env pwt = voidTransaction env pwt from rfl] at hok
        rcases hpr : parseRequest env pwt "voidRequest" "Authorization" with e | r
        · rw [voidTransaction_parse_error env pwt p e hp hguard hpr] at hok
          simp only [Except.ok.injEq] at hok
          subst hok
          exact targetsOk_handleError _ _ _
        · simp only [voidTransaction, hp, hguard, hpr] at hok
          rw [if_neg (by simp : ¬(true = false))] at hok
          rcases hgw : env.braintreeVoidTransaction
              (jsGet (handleRequest env.timestamp "void" r).1 "transactionId") with e | response0
          · rw [hgw] at hok
            simp only [Except.ok.injEq] at hok
            subst hok
            exact targetsOk_handleError _ _ _
          · rw [hgw] at hok
            simp only [Except.ok.injEq] at hok
            subst hok
            intro a ha
            rcases List.mem_append.mp ha with h123 | h4
            · rcases List.mem_append.mp h123 with h12 | h3
              · rcases List.mem_append.mp h12 with h1 | h2
                · exact targetsOk_handleRequest _ _ _ _ a h1
                · exact targetsOk_handleResponse env.timestamp "void" response0
                    (pwt.transaction.map CtTransaction.id) true a h2
              · simp only [List.mem_singleton] at h3
                subst h3
                exact trivial
            · exact targetsOk_updatePaymentFields _ _ a h4


/-- Witness for C9: a successful refund with an event transaction whose
id is `t1`; every setCustomField-style action targets the transaction. -/
theorem c9_target_consistency_amended_witness :
    (runOp .refundOp envBase { payment := some pRefund, transaction := some tCharge }).1
      = .ok
      [ .addInterfaceInteraction BRAINTREE_PAYMENT_INTERACTION_TYPE_KEY "refundRequest"
          "\x7b\"transactionId\":\"r1\"\x7d" "T",
        .setField "setTransactionCustomField" (some "t1") "refundResponse" (some "ok"),
        .addInterfaceInteraction BRAINTREE_PAYMENT_INTERACTION_TYPE_KEY "refundResponse"
          "ok" "T",
        .setField "setTransactionCustomField" (some "t1") "refundRequest" none,
        .addTransaction "Refund" 0 none none none "Success",
        .setStatusInterfaceCode none,
        .setStatusInterfaceText none,
        .setMethodInfoMethod "undefined" ] ∧
    ∀ a ∈
      [ UpdateAction.addInterfaceInteraction BRAINTREE_PAYMENT_INTERACTION_TYPE_KEY
          "refundRequest" "\x7b\"transactionId\":\"r1\"\x7d" "T",
        .setField "setTransactionCustomField" (some "t1") "refundResponse" (some "ok"),
        .addInterfaceInteraction BRAINTREE_PAYMENT_INTERACTION_TYPE_KEY "refundResponse"
          "ok" "T",
        .setField "setTransactionCustomField" (some "t1") "refundRequest" none,
        .addTransaction "Refund" 0 none none none "Success",
        .setStatusInterfaceCode none,
        .setStatusInterfaceText none,
        .setMethodInfoMethod "undefined" ],
      targetsOk (Option.map CtTransaction.id
        ({ payment := some pRefund, transaction := some tCharge } :
          PaymentWithOptionalTransaction).transaction) a :=
  ⟨rfl,
   c9_target_consistency_amended .refundOp envBase
     { payment := some pRefund, transaction := some tCharge } _ (Or.inl rfl) rfl⟩

/-- A commercetools transaction with the empty string as id. -/
def tEmptyId : CtTransaction :=
  { id := "", ttype := "Charge", interactionId := some "x", custom := none }

/-- Counterexample to C9 as stated: with an event transaction whose id
is the empty string (falsy), the refund response write uses action
`setCustomField` even though the event includes a transaction. -/
theorem c9_counterexample :
    ({ payment := some pRefund, transaction := some tEmptyId } :
      PaymentWithOptionalTransaction).transaction = some tEmptyId ∧
    (okActions (runOp .refundOp envBase
      { payment := some pRefund, transaction := some tEmptyId })).get? 1 =
      some (.setField "setCustomField" (some "") "refundResponse" (some "ok")) ∧
    "setCustomField" ≠ "setTransactionCustomField" :=
  ⟨rfl, rfl, by decide⟩

/-- Lookup in the fields a value contributes to a spread. -/
theorem fsGet_objFields (v : Js) (k : String) : fsGet (objFields v) k = jsGet v k := by
  cases v <;> rfl

/-- With the request field populated, `amountPlanned` defined and a
parse result other than JSON null, `parseTransactionSaleRequest` spreads
the parsed request (or the plain-string nonce fallback) over the
computed defaults. -/
theorem parseTransactionSaleRequest_eq (env : Env) (p : Payment) (ap : Money) (raw : String)
    (hf : ctGetO p.custom "transactionSaleRequest" = some raw)
    (hraw : raw ≠ "")
    (hap : p.amountPlanned = some ap)
    (hnotnull : env.jsonParse raw ≠ some Js.null) :
    parseTransactionSaleRequest env p = .ok
      (jsSpread (transactionSaleDefaults env ap
        (match env.jsonParse raw with
         | some v => v
         | none => .obj (.cons "paymentMethodNonce" (.str raw) .nil)))
        (match env.jsonParse raw with
         | some v => v
         | none => .obj (.cons "paymentMethodNonce" (.str raw) .nil))) := by
  cases hj : env.jsonParse raw with
  | none =>
    simp only [parseTransactionSaleRequest, hf, hap, hj]
    rw [if_neg hraw]
  | some v =>
    cases v with
    | null => exact absurd hj hnotnull
    | bool b =>
      simp only [parseTransactionSaleRequest, hf, hap, hj]
      rw [if_neg hraw]
    | num n =>
      simp only [parseTransactionSaleRequest, hf, hap, hj]
      rw [if_neg hraw]
    | str s =>
      simp only [parseTransactionSaleRequest, hf, hap, hj]
      rw [if_neg hraw]
    | obj fs =>
      simp only [parseTransactionSaleRequest, hf, hap, hj]
      rw [if_neg hraw]

/-- With a populated transactionSaleRequest and a parsed request, the
sale handler performs exactly one gateway call with the cleaned
request. -/
theorem handleTransactionSaleRequest_calls (env : Env) (p : Payment) (r : Js)
    (hguard : optTruthy (ctGetO p.custom "transactionSaleRequest") = true)
    (hpr : parseTransactionSaleRequest env p = .ok r) :
    (handleTransactionSaleRequest env (some p)).2 =
      [.transactionSaleCall (handleRequest env.timestamp "transactionSale" r).1] := by
  simp only [handleTransactionSaleRequest, hguard, hpr]
  rw [if_neg (by simp : ¬(true = false))]
  cases hgw : env.transactionSale (handleRequest env.timestamp "transactionSale" r).1 <;>
    simp [hgw]

/-- C6 (amended): when the transaction-sale request parses to something
other than JSON null and carries no own `amount` property, the amount
sent to the gateway is exactly the host rendering
`String(centAmount * Math.pow(10, -fractionDigits || 0))` of the
payment's amountPlanned (`Env.amountString`, IEEE-double arithmetic,
which need not be the exact decimal); a parsed request with an own
`amount` property overrides the computed value, because the source
spreads the parsed request last; and a request parsing to JSON null
makes the handler throw a TypeError (reading `customer` on null), caught
into the two error actions with no gateway call. -/
theorem c6_amount_conversion_amended (env : Env) (p : Payment) (ap : Money) (raw : String)
    (hf : ctGetO p.custom "transactionSaleRequest" = some raw)
    (hraw : raw ≠ "")
    (hap : p.amountPlanned = some ap) :
    ((∀ v, env.jsonParse raw = some v → v ≠ Js.null ∧ jsGet v "amount" = none) →
      ∃ req, (handleTransactionSaleRequest env (some p)).2 = [.transactionSaleCall req] ∧
        jsGet req "amount" =
          some (.str (env.amountString ap.centAmount ap.fractionDigits))) ∧
    (env.jsonParse raw = some Js.null →
      handleTransactionSaleRequest env (some p) =
        (.ok (handleError "transactionSale" (typeErrorNullRead "customer") none), [])) := by
  have hguard : optTruthy (ctGetO p.custom "transactionSaleRequest") = true := by
    rw [hf]; simp [optTruthy, hraw]
  constructor
  · intro hv
    have hnotnull : env.jsonParse raw ≠ some Js.null := fun h => (hv _ h).1 rfl
    have hpr := parseTransactionSaleRequest_eq env p ap raw hf hraw hap hnotnull
    refine ⟨_, handleTransactionSaleRequest_calls env p _ hguard hpr, ?_⟩
    have hreqamt : fsGet (objFields
        (match env.jsonParse raw with
         | some v => v
         | none => .obj (.cons "paymentMethodNonce" (.str raw) .nil))) "amount" = none := by
      cases hj : env.jsonParse raw with
      | some v => rw [fsGet_objFields]; exact (hv v hj).2
      | none => rfl
    have hspread : jsGet (jsSpread (transactionSaleDefaults env ap
        (match env.jsonParse raw with
         | some v => v
         | none => .obj (.cons "paymentMethodNonce" (.str raw) .nil)))
        (match env.jsonParse raw with
         | some v => v
         | none => .obj (.cons "paymentMethodNonce" (.str raw) .nil))) "amount" =
        some (.str (env.amountString ap.centAmount ap.fractionDigits)) := by
      rw [jsGet_jsSpread_present _ _ _ _ (by rfl :
        fsGet (transactionSaleDefaults env ap
          (match env.jsonParse raw with
           | some v => v
           | none => .obj (.cons "paymentMethodNonce" (.str raw) .nil))) "amount" =
        some (.str (env.amountString ap.centAmount ap.fractionDigits)))]
      rw [hreqamt]
    show jsGet (handleRequest env.timestamp "transactionSale" _).1 "amount" = _
    rw [show (handleRequest env.timestamp "transactionSale"
        (jsSpread (transactionSaleDefaults env ap
          (match env.jsonParse raw with
           | some v => v
           | none => .obj (.cons "paymentMethodNonce" (.str raw) .nil)))
          (match env.jsonParse raw with
           | some v => v
           | none => .obj (.cons "paymentMethodNonce" (.str raw) .nil)))).1
        = removeEmptyProperties (jsSpread (transactionSaleDefaults env ap
          (match env.jsonParse raw with
           | some v => v
           | none => .obj (.cons "paymentMethodNonce" (.str raw) .nil)))
          (match env.jsonParse raw with
           | some v => v
           | none => .obj (.cons "paymentMethodNonce" (.str raw) .nil))) from rfl]
    show fsGet (removeEmptyPropertiesFields _) "amount" = _
    exact fsGet_removeEmpty_str _ _ _ hspread
  · intro hj
    have hpe : parseTransactionSaleRequest env p =
        .error (typeErrorNullRead "customer") := by
      simp only [parseTransactionSaleRequest, hf, hap, hj]
      rw [if_neg hraw]
    simp only [handleTransactionSaleRequest, hguard, hpe]
    rw [if_neg (by simp : ¬(true = false))]

/-- A payment with a transactionSaleRequest and amountPlanned of 100
cents with 2 fraction digits. -/
def pSale : Payment where
  custom := some [("transactionSaleRequest", "s1")]
  amountPlanned := some { centAmount := 100, currencyCode := "EUR", fractionDigits := 2 }
  transactions := []
  interfaceId := none

/-- Witness for C6: with a non-JSON sale request (nonce fallback, no
own amount), the gateway request amount is the host rendering of the
cent amount, here `1` for 100 cents with 2 fraction digits. -/
theorem c6_amount_conversion_amended_witness :
    ctGetO pSale.custom "transactionSaleRequest" = some "s1" ∧
    envBase.amountString 100 2 = "1" ∧
    ∃ req, (handleTransactionSaleRequest envBase (some pSale)).2 =
        [.transactionSaleCall req] ∧
      jsGet req "amount" = some (.str "1") :=
  ⟨rfl, rfl,
   (c6_amount_conversion_amended envBase pSale
     { centAmount := 100, currencyCode := "EUR", fractionDigits := 2 } "s1"
     rfl (by decide) rfl).1 (fun v h => by cases h)⟩

/-- A host environment parsing every request field as an object with an
own `amount` property `"99"`. -/
def envAmtOverride : Env :=
  { envBase with jsonParse := fun _ => some (.obj (.cons "amount" (.str "99") .nil)) }

/-- The amount recorded in a transaction-sale gateway call. -/
def saleCallAmount : GwCall → Option Js
  | .transactionSaleCall r => jsGet r "amount"
  | _ => none

/-- Counterexample to C6 as stated: a parsed sale request carrying its
own `amount` overrides the value computed from amountPlanned (100 cents,
2 fraction digits, whose host rendering is `1`): the gateway receives
`99`. -/
theorem c6_counterexample :
    pSale.amountPlanned =
      some { centAmount := 100, currencyCode := "EUR", fractionDigits := 2 } ∧
    ((handleTransactionSaleRequest envAmtOverride (some pSale)).2.map saleCallAmount) =
      [some (.str "99")] ∧
    envAmtOverride.amountString 100 2 = "1" ∧ ("99" : String) ≠ "1" :=
  ⟨rfl, rfl, rfl, by decide⟩

/-- With a non-JSON request field, `parseRequest` yields the
plain-string transaction id payload unchanged. -/
theorem parseRequest_plainString (env : Env) (pwt : PaymentWithOptionalTransaction)
    (requestField ttype : String) (p : Payment) (raw : String)
    (hp : pwt.payment = some p) (hf : ctGetO p.custom requestField = some raw)
    (hraw : raw ≠ "") (hparse : env.jsonParse raw = none) :
    parseRequest env pwt requestField ttype =
      .ok (.obj (.cons "transactionId" (.str raw) .nil)) := by
  simp only [parseRequest, hp, Option.bind_eq_bind, Option.some_bind, hf, hparse, jsGet,
    fsGet, jsNN]
  rw [if_neg hraw]
  simp

/-- The transaction-sale defaults never bind `paymentMethodNonce`. -/
theorem transactionSaleDefaults_no_nonce (env : Env) (ap : Money) (request : Js) :
    fsGet (transactionSaleDefaults env ap request) "paymentMethodNonce" = none := by
  cases hm : env.merchantAccount with
  | none => simp only [transactionSaleDefaults, merchantField, hm]; rfl
  | some m =>
    by_cases hme : m = ""
    · simp only [transactionSaleDefaults, merchantField, hm, if_pos hme]; rfl
    · simp only [transactionSaleDefaults, merchantField, hm, if_neg hme]; rfl

/-- C4 (amended): a request field value that is not valid JSON is
accepted as a plain-string payload by refund, submitForSettlement,
voidTransaction (it becomes the gateway transactionId), by
handleTransactionSaleRequest and the vault flow (it becomes the
paymentMethodNonce of the gateway request); getClientToken and the find
flow, however, call JSON.parse outside any operation-local catch and
reject a non-JSON value by throwing. -/
theorem c4_plain_string_amended (env : Env) (raw : String)
    (hparse : env.jsonParse raw = none)
    (hraw : raw ≠ "") :
    (∀ op, (op = PaymentOp.refundOp ∨ op = PaymentOp.submitForSettlementOp ∨
        op = PaymentOp.voidOp) →
      ∀ pwt p, pwt.payment = some p → ctGetO p.custom (opField op) = some raw →
      ∃ c, (runOp op env pwt).2 = [c] ∧ gwCallTid c = some (some (.str raw))) ∧
    (∀ p ap, ctGetO p.custom "transactionSaleRequest" = some raw →
      p.amountPlanned = some ap →
      ∃ req, (handleTransactionSaleRequest env (some p)).2 = [.transactionSaleCall req] ∧
        jsGet req "paymentMethodNonce" = some (.str raw)) ∧
    (∀ customer cid, ctGetO customer.custom "vaultRequest" = some raw →
      ctGetO customer.custom "customerId" = some cid → cid ≠ "" →
      jsGet (parseVaultRequest env customer) "paymentMethodNonce" = some (.str raw) ∧
      ∀ acc, (vaultStep env customer acc).2 =
        [.createPaymentMethodCall (parseVaultRequest env customer)]) ∧
    (∀ p, ctGetO p.custom "getClientTokenRequest" = some raw →
      (handleGetClientTokenRequest env (some p)).1 = .error jsonParseError) ∧
    (∀ resource customer, resource.obj = some customer →
      ctGetO customer.custom "findRequest" = some raw →
      (update env resource).1 = .error (customErr 400
        ("Internal server error on CustomerController: " ++ stackOf jsonParseError))) := by
  refine ⟨?_, ?_, ?_, ?_, ?_⟩
  · intro op hop pwt p hp hf
    have hgt : ∀ n : String,
        jsGet (handleRequest env.timestamp n
          (.obj (.cons "transactionId" (.str raw) .nil))).1 "transactionId"
          = some (.str raw) := fun _ => rfl
    rcases hop with h | h | h <;> subst h
    · have hguard : optTruthy (ctGetO p.custom "refundRequest") = true := by
        rw [show ("refundRequest" : String) = opField .refundOp from rfl, hf]
        simp [optTruthy, hraw]
      have hpr := parseRequest_plainString env pwt "refundRequest" "Charge" p raw
        hp hf hraw hparse
      rw [show runOp .refundOp env pwt = refund env pwt from rfl,
        refund_calls env pwt p _ hp hguard hpr]
      exact ⟨_, rfl, by simp [gwCallTid, hgt]⟩
    · have hguard : optTruthy (ctGetO p.custom "submitForSettlementRequest") = true := by
        rw [show ("submitForSettlementRequest" : String) =
          opField .submitForSettlementOp from rfl, hf]
        simp [optTruthy, hraw]
      have hpr := parseRequest_plainString env pwt "submitForSettlementRequest"
        "Authorization" p raw hp hf hraw hparse
      rw [show runOp .submitForSettlementOp env pwt = submitForSettlement env pwt from rfl,
        submitForSettlement_calls env pwt p _ hp hguard hpr]
      exact ⟨_, rfl, by simp [gwCallTid, hgt]⟩
    · have hguard : optTruthy (ctGetO p.custom "voidRequest") = true := by
        rw [show ("voidRequest" : String) = opField .voidOp from rfl, hf]
        simp [optTruthy, hraw]
      have hpr := parseRequest_plainString env pwt "voidRequest" "Authorization" p raw
        hp hf hraw hparse
      rw [show runOp .voidOp env pwt = voidTransaction env pwt from rfl,
        voidTransaction_calls env pwt p _ hp hguard hpr]
      exact ⟨_, rfl, by simp [gwCallTid, hgt]⟩
  · intro p ap hf hap
    have hguard : optTruthy (ctGetO p.custom "transactionSaleRequest") = true := by
      rw [hf]; simp [optTruthy, hraw]
    have hpr := parseTransactionSaleRequest_eq env p ap raw hf hraw hap
      (by intro h; rw [hparse] at h; exact Option.noConfusion h)
    rw [hparse] at hpr
    refine ⟨_, handleTransactionSaleRequest_calls env p _ hguard hpr, ?_⟩
    have hspread : jsGet (jsSpread
        (transactionSaleDefaults env ap (.obj (.cons "paymentMethodNonce" (.str raw) .nil)))
        (.obj (.cons "paymentMethodNonce" (.str raw) .nil))) "paymentMethodNonce" =
        some (.str raw) := by
      rw [jsGet_jsSpread_absent _ _ _ (transactionSaleDefaults_no_nonce env ap _)]
      rfl
    show fsGet (removeEmptyPropertiesFields _) "paymentMethodNonce" = _
    exact fsGet_removeEmpty_str _ _ _ hspread
  · intro customer cid hv hcid hcidne
    have hpv : parseVaultRequest env customer =
        .obj (.cons "paymentMethodNonce" (.str raw)
          (.cons "customerId" (.str cid)
            (.cons "options"
              (.obj (.cons "failOnDuplicatePaymentMethod" (.bool true) .nil)) .nil))) := by
      simp only [parseVaultRequest, hv, hparse, hcid]
      rw [if_neg hcidne]
      rfl
    refine ⟨by rw [hpv]; rfl, ?_⟩
    intro acc
    have hguard : optTruthy (ctGetO customer.custom "customerId") = true := by
      rw [hcid]; simp [optTruthy, hcidne]
    simp only [vaultStep, hv, hguard]
    rw [if_neg hraw]
    rw [if_neg (by simp : ¬(true = false))]
    cases hgw : env.createPaymentMethod (parseVaultRequest env customer) <;> simp [hgw]
  · intro p hf
    simp only [handleGetClientTokenRequest, hf, hparse]
    rw [if_neg hraw]
  · intro resource customer hobj hfind
    simp only [update, findStep, hobj, hfind, hparse]
    rw [if_neg hraw]
    rfl

/-- Witness for C4: a non-JSON refundRequest value `r1` becomes the
transactionId of the refund gateway call. -/
theorem c4_plain_string_amended_witness :
    envBase.jsonParse "r1" = none ∧ ("r1" : String) ≠ "" ∧
    (∃ c, (runOp .refundOp envBase { payment := some pRefund, transaction := none }).2 = [c]
      ∧ gwCallTid c = some (some (.str "r1"))) :=
  ⟨rfl, by decide,
   (c4_plain_string_amended envBase "r1" rfl (by decide)).1 .refundOp (Or.inl rfl)
     { payment := some pRefund, transaction := none } pRefund rfl rfl⟩

/-- Counterexample to C4 as stated: the getClientToken operation rejects
a non-JSON request field value by throwing SyntaxError before reaching
the gateway, so not every operation accepts a plain-string payload. -/
theorem c4_counterexample :
    ctGetO pTok.custom "getClientTokenRequest" = some "bad" ∧
    envBase.jsonParse "bad" = none ∧
    (handleGetClientTokenRequest envBase (some pTok)).1 = .error jsonParseError ∧
    (handleGetClientTokenRequest envBase (some pTok)).2 = [] :=
  ⟨rfl, rfl, rfl, rfl⟩

/-- C7 (amended): the customer update handler processes findRequest,
createRequest and vaultRequest in that order and returns status 200 with
the accumulated actions, where a successful operation appends its
response actions but a failed operation replaces the accumulated list
with its own two error actions (so actions of operations preceding the
last failure are dropped). -/
theorem c7_update_actions_amended (env : Env) (resource : CustomerReference)
    (customer : Customer)
    (hobj : resource.obj = some customer) :
    (∀ acc1 calls1, findStep env customer [] = (.ok acc1, calls1) →
      (update env resource).1 = .ok (some
        (CtrlResult.mk 200 (vaultStep env customer (createStep env customer acc1).1).1))) ∧
    (∀ acc raw, ctGetO customer.custom "createRequest" = some raw → raw ≠ "" →
      (optJsTruthy (jsGet (env.mapCustomerToBraintreeCreateRequest customer raw) "id")
          = false →
        (createStep env customer acc).1 =
          handleError "create" (customErr 400 "field customerId is missing") none) ∧
      (∀ e, optJsTruthy (jsGet (env.mapCustomerToBraintreeCreateRequest customer raw) "id")
          = true →
        env.createCustomer (env.mapCustomerToBraintreeCreateRequest customer raw)
          = .error e →
        (createStep env customer acc).1 = handleError "create" e none) ∧
      (∀ resp,
        optJsTruthy (jsGet (env.mapCustomerToBraintreeCreateRequest customer raw) "id")
          = true →
        env.createCustomer (env.mapCustomerToBraintreeCreateRequest customer raw)
          = .ok resp →
        (createStep env customer acc).1 =
          acc ++ handleCustomerResponse "create" resp customer)) := by
  constructor
  · intro acc1 calls1 h1
    rcases hcs : createStep env customer acc1 with ⟨acc2, calls2⟩
    rcases hvs : vaultStep env customer acc2 with ⟨acc3, calls3⟩
    simp only [update, hobj, h1, hcs, hvs]
  · intro acc raw hc hraw
    refine ⟨?_, ?_, ?_⟩
    · intro hid
      simp only [createStep, hc, hid, ite_true]
      rw [if_neg hraw]
    · intro e hid hgw
      simp only [createStep, hc, hid, hgw]
      rw [if_neg hraw]
      rw [if_neg (by simp : ¬(true = false))]
    · intro resp hid hgw
      simp only [createStep, hc, hid, hgw]
      rw [if_neg hraw]
      rw [if_neg (by simp : ¬(true = false))]

/-- A customer with populated findRequest and createRequest fields. -/
def custFC : Customer where
  id := "cust-1"
  custom := some [("findRequest", "fr"), ("createRequest", "cr")]

/-- A host environment where every field parses as an empty object, find
succeeds and createCustomer fails. -/
def envCreateFail : Env :=
  { envBase with
    jsonParse := fun _ => some (.obj .nil),
    createCustomer := fun _ => .error (.err "Error" "boom" "st") }

/-- Witness for C7: the update result is status 200 with the folded
branch actions. -/
theorem c7_update_actions_amended_witness :
    findStep envCreateFail custFC [] = (.ok
      [ .setField "setCustomField" none "findResponse" (some "F"),
        .setField "setCustomField" none "findRequest" none ],
      [.findCustomerCall (.str "cust-1")]) ∧
    (update envCreateFail { obj := some custFC }).1 = .ok (some
      (CtrlResult.mk 200 (vaultStep envCreateFail custFC
        (createStep envCreateFail custFC
          [ .setField "setCustomField" none "findResponse" (some "F"),
            .setField "setCustomField" none "findRequest" none ]).1).1)) :=
  ⟨rfl,
   (c7_update_actions_amended envCreateFail { obj := some custFC } custFC rfl).1 _ _ rfl⟩

/-- Counterexample to C7 as stated: with findRequest succeeding and
createRequest failing at the gateway, the returned actions are only the
two create error actions; the find actions are discarded rather than
concatenated (the error branch assigns instead of concatenating). -/
theorem c7_counterexample :
    (update envCreateFail { obj := some custFC }).1 =
      .ok (some (CtrlResult.mk 200
        [ .setField "setCustomField" none "createResponse"
            (some "\x7b\"success\":false,\"message\":\"boom\"\x7d"),
          .setField "setCustomField" none "createRequest" none ])) ∧
    ¬ ((update envCreateFail { obj := some custFC }).1 =
      .ok (some (CtrlResult.mk 200
        (handleCustomerResponse "find" (.str "F") custFC ++
          handleError "create" (.err "Error" "boom" "st") none)))) := by
  refine ⟨rfl, ?_⟩
  intro h
  have heq : (Except.ok (some (CtrlResult.mk 200
      [ UpdateAction.setField "setCustomField" none "createResponse"
          (some "\x7b\"success\":false,\"message\":\"boom\"\x7d"),
        .setField "setCustomField" none "createRequest" none ])) :
        Except JsError (Option CtrlResult)) =
      .ok (some (CtrlResult.mk 200
        (handleCustomerResponse "find" (.str "F") custFC ++
          handleError "create" (.err "Error" "boom" "st") none))) :=
    (rfl : (update envCreateFail { obj := some custFC }).1 = _).symm.trans h
  simp only [Except.ok.injEq, Option.some.injEq, CtrlResult.mk.injEq, true_and] at heq
  have hlen := congrArg List.length heq
  simp [handleCustomerResponse, handleError] at hlen
